import Mathlib

/-!
# Verification of the economic-report bot's scheduling core

Shallow embedding of the repository's release watcher
(`src/services/release_watcher.py`), orchestration loop (`src/main.py`),
persistence layer (`src/utils/cache.py`, `src/utils/state.py`) and the
week-calendar aggregation helper (`src/services/calendar_service.py`),
with theorems settling the frozen claims about them.

Conventions of the embedding:
* All datetimes handled by the watcher and the orchestration loop live in
  one timezone (US Eastern); they are modelled as `Int`, a count of
  seconds on the ET wall clock with second `0` at some midnight, so that
  `datetime.replace(hour=h, minute=0, second=0, microsecond=0)` becomes
  "floor to the day, then add `h * 3600`".
* The serialization layer (where timezone offsets themselves matter)
  uses an explicit civil datetime structure `DateTimeC` instead.
* Python dicts used as id-keyed maps become association lists; Python
  sets of strings become `Finset String`.
* Provider network calls are oracles: a `fetch : EconomicEvent →
  EconomicEvent` parameter stands for `provider.fetch_release` (whose
  exceptions `poll_event` converts into "return the event unchanged", so
  an arbitrary total function is a faithful observable model).  Functions
  that fetch also return the list of event ids for which a fetch attempt
  was made, as the observation the temporal claims talk about.
-/

namespace EconBot

/-- `EventStatus` literals from `src/models.py`. -/
inductive EventStatus
  | scheduled
  | released
  | missing
  | disabled
deriving DecidableEq, Repr

/-- `ReleaseData` from `src/models.py` (watcher-side model; `updated_at`
is an `Int` instant in this part of the embedding). -/
structure ReleaseData where
  actual : Option String := none
  previous : Option String := none
  forecast : Option String := none
  unit : Option String := none
  updated_at : Option Int := none
  source_url : Option String := none
deriving DecidableEq, Repr

/-- `EconomicEvent` from `src/models.py` (fields the watcher and the
orchestration loop read or write). -/
structure EconomicEvent where
  event_id : String
  name : String
  scheduled_time_et : Int
  provider : String
  provider_configured : Bool
  status : EventStatus := .scheduled
  release : ReleaseData := {}
  group_key : Option String := none
deriving DecidableEq, Repr

/-- The `ReleaseWatcher` constructor arguments (polling configuration). -/
structure WCfg where
  burst_poll_seconds : Int
  burst_window_seconds : Int
  backoff_start_seconds : Int
  backoff_max_seconds : Int
  cutoff_hour : Int := 17
deriving DecidableEq, Repr

/-- Association-list lookup, modelling `dict.get` / `dict[...]`. -/
def alLookup (m : List (String × α)) (k : String) : Option α :=
  (m.find? (fun p => p.1 = k)).map (fun p => p.2)

/-- Association-list overwrite-insert, modelling `dict[k] = v`. -/
def alInsert (m : List (String × α)) (k : String) (v : α) : List (String × α) :=
  if m.any (fun p => p.1 = k) then
    m.map (fun p => if p.1 = k then (k, v) else p)
  else
    m ++ [(k, v)]

/-- Association-list removal, modelling `dict.pop(k, None)`. -/
def alErase (m : List (String × α)) (k : String) : List (String × α) :=
  m.filter (fun p => p.1 ≠ k)

/-- The watcher's ephemeral timer state: `_next_poll_at` and `_backoff`
maps of `ReleaseWatcher`. -/
structure Watcher where
  nextPollAt : List (String × Int) := []
  backoff : List (String × Int) := []
deriving DecidableEq, Repr

/-- `PollPlan` dataclass from `src/services/release_watcher.py`. -/
structure PollPlan where
  due : Bool
  next_poll_at : Option Int
  in_burst_window : Bool
  burst_deadline : Option Int
  backoff_seconds : Option Int
  expired_for_day : Bool
deriving DecidableEq, Repr

/-- Whether a status is terminal, i.e. `status in ("released", "disabled")`. -/
def isTerminal (s : EventStatus) : Bool :=
  s = .released ∨ s = .disabled

/-- `ReleaseWatcher._cutoff_dt`: the scheduled time's calendar date at
`cutoff_hour:00:00` — floor `scheduled_time_et` to its day, add the hour. -/
def cutoffDt (cfg : WCfg) (e : EconomicEvent) : Int :=
  86400 * (e.scheduled_time_et / 86400) + cfg.cutoff_hour * 3600

/-- `ReleaseWatcher.plan`, including its mutation of the timer maps. -/
def plan (cfg : WCfg) (w : Watcher) (e : EconomicEvent) (now_et : Int) :
    PollPlan × Watcher :=
  if isTerminal e.status then
    (⟨false, none, false, none, none, false⟩, w)
  else if now_et < e.scheduled_time_et then
    (⟨false, none, false, none, none, false⟩,
      ⟨alErase w.nextPollAt e.event_id, alErase w.backoff e.event_id⟩)
  else if cutoffDt cfg e ≤ now_et then
    (⟨false, none, false, none, none, true⟩,
      ⟨alErase w.nextPollAt e.event_id, alErase w.backoff e.event_id⟩)
  else
    let burst_deadline := e.scheduled_time_et + cfg.burst_window_seconds
    let in_burst := now_et ≤ burst_deadline
    let w := if (alLookup w.nextPollAt e.event_id).isNone then
        { w with nextPollAt := alInsert w.nextPollAt e.event_id e.scheduled_time_et }
      else w
    let npa := (alLookup w.nextPollAt e.event_id).getD e.scheduled_time_et
    let due := npa ≤ now_et
    if in_burst then
      (⟨due, some (if due then now_et + cfg.burst_poll_seconds else npa),
        true, some burst_deadline, none, false⟩, w)
    else
      let bo := (alLookup w.backoff e.event_id).getD cfg.backoff_start_seconds
      (⟨due, some (if due then now_et + bo else npa),
        false, some burst_deadline, some bo, false⟩, w)

/-- `ReleaseWatcher.is_expired_for_day`. -/
def isExpiredForDay (cfg : WCfg) (e : EconomicEvent) (now_et : Int) : Bool :=
  if isTerminal e.status then false
  else if now_et < e.scheduled_time_et then false
  else cutoffDt cfg e ≤ now_et

/-- `ReleaseWatcher.poll_event`: dispatch to the provider's
`fetch_release` (the `fetch` oracle; exceptions already folded into it),
or mark the event `disabled` when its provider is unknown.  Also returns
the ids for which a `fetch_release` attempt was made. -/
def pollEvent (providers : List String) (fetch : EconomicEvent → EconomicEvent)
    (e : EconomicEvent) : EconomicEvent × List String :=
  if providers.contains e.provider then
    (fetch e, [e.event_id])
  else
    ({ e with status := .disabled }, [])

/-- `ReleaseWatcher.maybe_poll`. -/
def maybePoll (cfg : WCfg) (providers : List String)
    (fetch : EconomicEvent → EconomicEvent) (w : Watcher)
    (e : EconomicEvent) (now_et : Int) : EconomicEvent × Watcher × List String :=
  let (p, w1) := plan cfg w e now_et
  if p.expired_for_day then (e, w1, [])
  else if !p.due then (e, w1, [])
  else
    let (updated, fids) := pollEvent providers fetch e
    if updated.status ≠ .released then
      if cutoffDt cfg e ≤ now_et + cfg.burst_poll_seconds then
        (updated,
          ⟨alErase w1.nextPollAt e.event_id, alErase w1.backoff e.event_id⟩, fids)
      else
        let burst_deadline := e.scheduled_time_et + cfg.burst_window_seconds
        if now_et ≤ burst_deadline then
          (updated,
            { w1 with nextPollAt :=
                alInsert w1.nextPollAt e.event_id (now_et + cfg.burst_poll_seconds) },
            fids)
        else
          let bo := (alLookup w1.backoff e.event_id).getD cfg.backoff_start_seconds
          (updated,
            ⟨alInsert w1.nextPollAt e.event_id (now_et + bo),
             alInsert w1.backoff e.event_id (min (bo * 2) cfg.backoff_max_seconds)⟩,
            fids)
    else
      (updated,
        ⟨alErase w1.nextPollAt e.event_id, alErase w1.backoff e.event_id⟩, fids)

/-- `ReleaseWatcher.check_due_live_once`. -/
def checkDueLiveOnce (cfg : WCfg) (providers : List String)
    (fetch : EconomicEvent → EconomicEvent) (w : Watcher)
    (events : List EconomicEvent) (now_et : Int) :
    List EconomicEvent × Watcher × List String :=
  match events with
  | [] => ([], w, [])
  | e :: rest =>
    if isTerminal e.status then
      let (us, w', fs) := checkDueLiveOnce cfg providers fetch w rest now_et
      (e :: us, w', fs)
    else if now_et < e.scheduled_time_et then
      let (us, w', fs) := checkDueLiveOnce cfg providers fetch w rest now_et
      (e :: us, w', fs)
    else
      let (u, w1, f1) := maybePoll cfg providers fetch w e now_et
      let (us, w', fs) := checkDueLiveOnce cfg providers fetch w1 rest now_et
      (u :: us, w', f1 ++ fs)

/-- `ReleaseWatcher.force_poll_once`.  Note: in the source the skip of
`released`/`disabled` events is commented out, so terminal events are
polled too; the watcher's timer maps are untouched. -/
def forcePollOnce (cfg : WCfg) (providers : List String)
    (fetch : EconomicEvent → EconomicEvent)
    (events : List EconomicEvent) (now_et : Int)
    (include_expired_for_day : Bool) : List EconomicEvent × List String :=
  match events with
  | [] => ([], [])
  | e :: rest =>
    if now_et < e.scheduled_time_et then
      let (us, fs) := forcePollOnce cfg providers fetch rest now_et include_expired_for_day
      (e :: us, fs)
    else if !include_expired_for_day && isExpiredForDay cfg e now_et then
      let (us, fs) := forcePollOnce cfg providers fetch rest now_et include_expired_for_day
      (e :: us, fs)
    else
      let (u, f1) := pollEvent providers fetch e
      let (us, fs) := forcePollOnce cfg providers fetch rest now_et include_expired_for_day
      (u :: us, f1 ++ fs)

/-- `ReleaseWatcher.groups`' key: `e.group_key or e.event_id`. -/
def groupKeyOf (e : EconomicEvent) : String :=
  e.group_key.getD e.event_id

/-- First-occurrence deduplication, modelling the key order of the dict
built by `ReleaseWatcher.groups` (`setdefault` keeps first insertion). -/
def keysFirst : List String → List String
  | [] => []
  | k :: ks => k :: (keysFirst ks).filter (fun k' => k' ≠ k)

/-- The group keys of an event list, in first-occurrence order. -/
def groupKeys (events : List EconomicEvent) : List String :=
  keysFirst (events.map groupKeyOf)

/-- The bucket of `ReleaseWatcher.groups` for one key. -/
def members (events : List EconomicEvent) (gk : String) : List EconomicEvent :=
  events.filter (fun e => groupKeyOf e = gk)

/-- The persisted `BotState` bookkeeping the orchestration loop mutates
(`src/utils/state.py`); `active_start_et` is not read by the per-tick
notification logic, so this watcher-side model carries it as a `Int`. -/
structure BotStateW where
  active_start_et : Int := 0
  posted_release_groups : Finset String := ∅
  posted_missing_groups : Finset String := ∅
  posted_expired_groups : Finset String := ∅
deriving DecidableEq

/-- The kinds of notification the orchestration loop can emit. -/
inductive Kind
  | released
  | missing
  | expired
deriving DecidableEq, Repr

/-- One emitted notification: its kind and the group key it covers. -/
abbrev Emit := Kind × String

/-- `for e in gevs: if e.status not in (released, disabled): e.status = "missing"`
— the in-place mutation of group `gk`'s members by the expired check. -/
def setMissingInGroup (events : List EconomicEvent) (gk : String) :
    List EconomicEvent :=
  events.map (fun e =>
    if groupKeyOf e = gk ∧ ¬isTerminal e.status then { e with status := .missing }
    else e)

/-- One iteration of the "Expire at 5PM ET" loop of `live_monitor_loop`. -/
def expiredStep (cfg : WCfg) (now : Int)
    (acc : List EconomicEvent × BotStateW × List Emit) (gk : String) :
    List EconomicEvent × BotStateW × List Emit :=
  let (evs, st, ems) := acc
  if gk ∈ st.posted_release_groups then acc
  else if gk ∈ st.posted_expired_groups then acc
  else
    let active := (members evs gk).filter (fun e => ¬isTerminal e.status)
    if active.isEmpty then acc
    else if active.any (fun e => isExpiredForDay cfg e now) then
      (setMissingInGroup evs gk,
       { st with posted_expired_groups := insert gk st.posted_expired_groups },
       ems ++ [(.expired, gk)])
    else acc

/-- The whole "Expire at 5PM ET" pass over the groups. -/
def expiredPass (cfg : WCfg) (now : Int) (evs : List EconomicEvent)
    (st : BotStateW) : List EconomicEvent × BotStateW × List Emit :=
  (groupKeys evs).foldl (expiredStep cfg now) (evs, st, [])

/-- One iteration of the "Missing after 1-minute burst" loop of
`live_monitor_loop`. -/
def missingStep (cfg : WCfg) (now : Int) (evs : List EconomicEvent)
    (acc : BotStateW × List Emit) (gk : String) : BotStateW × List Emit :=
  let (st, ems) := acc
  if gk ∈ st.posted_missing_groups then acc
  else if gk ∈ st.posted_release_groups ∨ gk ∈ st.posted_expired_groups then acc
  else
    let gevs := members evs gk
    let active := gevs.filter (fun e => ¬isTerminal e.status)
    if active.isEmpty then acc
    else
      match (gevs.map (fun e => e.scheduled_time_et)).min? with
      | none => acc  -- unreachable: `active` nonempty forces `gevs` nonempty
      | some sched =>
        if sched + cfg.burst_window_seconds ≤ now then
          ({ st with posted_missing_groups := insert gk st.posted_missing_groups },
           ems ++ [(.missing, gk)])
        else acc

/-- The whole "Missing after 1-minute burst" pass. -/
def missingPass (cfg : WCfg) (now : Int) (evs : List EconomicEvent)
    (st : BotStateW) : BotStateW × List Emit :=
  (groupKeys evs).foldl (missingStep cfg now evs) (st, [])

/-- The released-group condition shared by `live_monitor_loop` and
`rerun_cmd`: `all_released or (any_actual and none_scheduled)` over the
non-disabled members. -/
def releaseCond (gevs : List EconomicEvent) : Bool :=
  let non_disabled := gevs.filter (fun e => e.status ≠ .disabled)
  if non_disabled.isEmpty then false
  else
    let all_released := non_disabled.all (fun e => e.status = .released)
    let any_actual := non_disabled.any (fun e => e.release.actual.isSome)
    let none_scheduled := non_disabled.all (fun e => e.status ≠ .scheduled)
    all_released || (any_actual && none_scheduled)

/-- One iteration of the "Released (once)" loop of `live_monitor_loop`. -/
def releaseStep (evs : List EconomicEvent) (acc : BotStateW × List Emit)
    (gk : String) : BotStateW × List Emit :=
  let (st, ems) := acc
  if gk ∈ st.posted_release_groups then acc
  else if gk ∈ st.posted_expired_groups then acc
  else if releaseCond (members evs gk) then
    ({ st with posted_release_groups := insert gk st.posted_release_groups },
     ems ++ [(.released, gk)])
  else acc

/-- The whole "Released (once)" pass. -/
def releasePass (evs : List EconomicEvent) (st : BotStateW) :
    BotStateW × List Emit :=
  (groupKeys evs).foldl (releaseStep evs) (st, [])

/-- The output of one tick of `live_monitor_loop`'s body. -/
structure TickOut where
  events : List EconomicEvent
  watcher : Watcher
  state : BotStateW
  emits : List Emit
  fetched : List String
deriving DecidableEq

/-- One tick of `live_monitor_loop` (`src/main.py` lines 217–291): the
watcher pass, then the expired, missing and released notification
passes.  An empty event list short-circuits (`if events:`). -/
def liveTick (cfg : WCfg) (providers : List String)
    (fetch : EconomicEvent → EconomicEvent) (w : Watcher)
    (evs : List EconomicEvent) (st : BotStateW) (now : Int) : TickOut :=
  if evs.isEmpty then ⟨evs, w, st, [], []⟩
  else
    let (evs1, w1, fids) := checkDueLiveOnce cfg providers fetch w evs now
    let (evs2, st1, em1) := expiredPass cfg now evs1 st
    let (st2, em2) := missingPass cfg now evs2 st1
    let (st3, em3) := releasePass evs2 st2
    ⟨evs2, w1, st3, em1 ++ em2 ++ em3, fids⟩

/-- One iteration of `rerun_cmd`'s posting loop.  Unlike the live loop,
the `posted_release_groups` skip is commented out in the source, so a
group already posted is re-posted; `posted_expired_groups` membership is
checked but the branch is a `pass`. -/
def rerunStep (evs : List EconomicEvent) (acc : BotStateW × List Emit)
    (gk : String) : BotStateW × List Emit :=
  let (st, ems) := acc
  if releaseCond (members evs gk) then
    ({ st with posted_release_groups := insert gk st.posted_release_groups },
     ems ++ [(.released, gk)])
  else acc

/-- The whole `!rerun` command body (`src/main.py` lines 345–379):
one forced poll pass with `include_expired_for_day=True`, then the
release-posting loop with the dedup check commented out. -/
def rerunCmd (cfg : WCfg) (providers : List String)
    (fetch : EconomicEvent → EconomicEvent)
    (evs : List EconomicEvent) (st : BotStateW) (now : Int) :
    List EconomicEvent × BotStateW × List Emit × List String :=
  let (evs1, fids) := forcePollOnce cfg providers fetch evs now true
  let (st1, ems) := (groupKeys evs1).foldl (rerunStep evs1) (st, [])
  (evs1, st1, ems, fids)

/-- A replay of `live_monitor_loop` ticks: each input supplies that
tick's clock reading and fetch oracle.  Returns the final shared state
and the concatenation of all emitted notifications. -/
def runTicks (cfg : WCfg) (providers : List String) :
    Watcher × List EconomicEvent × BotStateW →
    List (Int × (EconomicEvent → EconomicEvent)) →
    (Watcher × List EconomicEvent × BotStateW) × List Emit
  | s, [] => (s, [])
  | (w, evs, st), (now, fetch) :: rest =>
    let t := liveTick cfg providers fetch w evs st now
    let (fin, ems) := runTicks cfg providers (t.watcher, t.events, t.state) rest
    (fin, t.emits ++ ems)

/-- The dict `by_id = {e.event_id: e for e in events}` of
`rebuild_calendar` (later duplicates overwrite earlier ones). -/
def byId (events : List EconomicEvent) : List (String × EconomicEvent) :=
  events.foldl (fun m e => alInsert m e.event_id e) []

/-- The per-fresh-event overlay of `rebuild_calendar`'s merge loop. -/
def mergeOne (old : List EconomicEvent) (e : EconomicEvent) : EconomicEvent :=
  match alLookup (byId old) e.event_id with
  | some o => { e with status := o.status, release := o.release }
  | none => e

/-- The merge of `rebuild_calendar` (`src/main.py` lines 141–150): the
fresh build's events, each overlaid with the previously live event's
`status` and `release` when the `event_id` matches.  Events present only
in `old` do not appear. -/
def mergeCalendar (old fresh : List EconomicEvent) : List EconomicEvent :=
  fresh.map (mergeOne old)

/-! ## Merge claims (C4, C2) -/

theorem mergeOne_event_id (old : List EconomicEvent) (e : EconomicEvent) :
    (mergeOne old e).event_id = e.event_id := by
  unfold mergeOne
  cases alLookup (byId old) e.event_id <;> rfl

/-- C4: in every rebuild merge, a fresh event whose `event_id` matches an
existing live event takes the existing event's `status` and `release`;
in particular an existing `released` event that is re-discovered under
the same `event_id` is still `released` with identical release values
after the merge. -/
theorem claim_C4 (old fresh : List EconomicEvent) (e o : EconomicEvent)
    (he : e ∈ fresh) (ho : alLookup (byId old) e.event_id = some o) :
    mergeOne old e ∈ mergeCalendar old fresh ∧
    (mergeOne old e).status = o.status ∧
    (mergeOne old e).release = o.release ∧
    (o.status = .released →
      (mergeOne old e).status = .released ∧ (mergeOne old e).release = o.release) := by
  refine ⟨List.mem_map.mpr ⟨e, he, rfl⟩, ?_, ?_, ?_⟩ <;>
    simp [mergeOne, ho]

/-- Old live event for the C4 witness: already released, with values. -/
def c4old : EconomicEvent :=
  { event_id := "bls-cpi-1", name := "CPI", scheduled_time_et := 30600,
    provider := "BLS", provider_configured := true, status := .released,
    release := { actual := some "3.1", previous := some "3.0" } }

/-- Fresh rediscovery of the same event id for the C4 witness. -/
def c4fresh : EconomicEvent :=
  { event_id := "bls-cpi-1", name := "CPI", scheduled_time_et := 30600,
    provider := "BLS", provider_configured := true, status := .scheduled }

theorem claim_C4_witness :
    c4fresh ∈ [c4fresh] ∧
    alLookup (byId [c4old]) c4fresh.event_id = some c4old ∧
    ((mergeOne [c4old] c4fresh).status = .released ∧
      (mergeOne [c4old] c4fresh).release = c4old.release) :=
  ⟨by decide, by decide,
    (claim_C4 [c4old] [c4fresh] c4fresh c4old (by decide) (by decide)).2.2.2
      (by decide)⟩

/-- An event present only in the old set, scheduled well after any
plausible active-week boundary (`0` here), for the C2 counterexample. -/
def c2old : EconomicEvent :=
  { event_id := "dol-claims-1", name := "Initial Claims",
    scheduled_time_et := 3 * 86400 + 30600, provider := "DOL",
    provider_configured := true, status := .scheduled }

/-- C2 counterexample: an event present only in the old set, scheduled
at or after the active-week boundary (here `0`), is *not* kept by the
merge — the merged set is exactly the fresh set, so it is empty when the
fresh build missed the event. -/
theorem claim_C2_counterexample :
    mergeCalendar [c2old] [] = [] ∧ (0 : Int) ≤ c2old.scheduled_time_et := by
  exact ⟨rfl, by decide⟩

/-- C2 (amended): the rebuild merge keeps exactly the fresh build's
events (same ids in the same order); every event present only in the old
set is dropped, whatever its scheduled time — the "kept if still within
the retained window" tolerance described by the spec does not exist in
`rebuild_calendar`. -/
theorem claim_C2 (old fresh : List EconomicEvent) :
    (mergeCalendar old fresh).map (fun e => e.event_id)
      = fresh.map (fun e => e.event_id) := by
  unfold mergeCalendar
  induction fresh with
  | nil => rfl
  | cons e rest ih =>
    simp only [List.map_cons, mergeOne_event_id, ih]

/-! ## Association-list facts shared by the watcher claims -/

theorem alLookup_alErase_self (m : List (String × α)) (k : String) :
    alLookup (alErase m k) k = none := by
  unfold alLookup alErase
  induction m with
  | nil => rfl
  | cons p rest ih =>
    by_cases h : p.1 = k
    · simp [h]
    · simp [List.filter_cons, h, List.find?_cons]

theorem alLookup_map_overwrite (m : List (String × α)) (k : String) (v : α)
    (h : m.any (fun p => p.1 = k)) :
    alLookup (m.map (fun p => if p.1 = k then (k, v) else p)) k = some v := by
  unfold alLookup
  induction m with
  | nil => simp at h
  | cons p rest ih =>
    by_cases hp : p.1 = k
    · simp [List.find?_cons, hp]
    · have h' : rest.any (fun p => p.1 = k) := by
        simpa [List.any_cons, hp] using h
      simpa [List.find?_cons, hp] using ih h'

theorem alLookup_alInsert_self (m : List (String × α)) (k : String) (v : α) :
    alLookup (alInsert m k v) k = some v := by
  unfold alInsert
  by_cases h : m.any (fun p => p.1 = k)
  · simpa [h] using alLookup_map_overwrite m k v h
  · simp only [h, if_false, Bool.false_eq_true]
    unfold alLookup
    induction m with
    | nil => simp [List.find?_cons]
    | cons p rest ih =>
      have hp : ¬(p.1 = k) := by
        intro hk
        exact h (by simp [List.any_cons, hk])
      have h' : ¬(rest.any (fun p => p.1 = k) = true) := by
        intro hk
        exact h (by simp [List.any_cons, hk])
      simpa [List.find?_cons, hp] using ih h'

/-- Default polling configuration from `src/config.py`
(`BURST_POLL_SECONDS=5`, `BURST_WINDOW_SECONDS=60`,
`BACKOFF_START_SECONDS=60`, `BACKOFF_MAX_SECONDS=900`, cutoff 17:00). -/
def cfgDefault : WCfg :=
  { burst_poll_seconds := 5, burst_window_seconds := 60,
    backoff_start_seconds := 60, backoff_max_seconds := 900, cutoff_hour := 17 }

/-! ## C10: events scheduled at or after the cutoff hour are never due -/

/-- C10: an event whose scheduled time-of-day is at or after the cutoff
hour is never reported due by `plan` at any clock reading: before its
scheduled time the plan is not due, and (for a non-terminal event) at or
after it the plan reports `expired_for_day` with the timer entries
cleared; `check_due_live_once` passes it through unchanged and performs
no fetch, so the live loop can never release it. -/
theorem claim_C10 (cfg : WCfg) (e : EconomicEvent) (providers : List String)
    (fetch : EconomicEvent → EconomicEvent) (w : Watcher) (now : Int)
    (hsch : cfg.cutoff_hour * 3600 ≤ e.scheduled_time_et % 86400) :
    (plan cfg w e now).1.due = false ∧
    (isTerminal e.status = false → e.scheduled_time_et ≤ now →
      (plan cfg w e now).1.expired_for_day = true ∧
      alLookup (plan cfg w e now).2.nextPollAt e.event_id = none ∧
      alLookup (plan cfg w e now).2.backoff e.event_id = none) ∧
    (checkDueLiveOnce cfg providers fetch w [e] now).1 = [e] ∧
    (checkDueLiveOnce cfg providers fetch w [e] now).2.2 = [] := by
  have hkey : cutoffDt cfg e ≤ e.scheduled_time_et := by
    unfold cutoffDt
    omega
  by_cases ht : isTerminal e.status
  · refine ⟨by simp [plan, ht], fun hf => absurd ht (by simp [hf]), ?_, ?_⟩ <;>
      simp [checkDueLiveOnce, ht]
  · by_cases hn : now < e.scheduled_time_et
    · have hplan : plan cfg w e now =
          (⟨false, none, false, none, none, false⟩,
            ⟨alErase w.nextPollAt e.event_id, alErase w.backoff e.event_id⟩) := by
        simp [plan, ht, hn]
      refine ⟨by simp [hplan], fun _ hle => absurd hle (by omega), ?_, ?_⟩ <;>
        simp [checkDueLiveOnce, ht, hn]
    · have hcut : cutoffDt cfg e ≤ now := by omega
      have hplan : plan cfg w e now =
          (⟨false, none, false, none, none, true⟩,
            ⟨alErase w.nextPollAt e.event_id, alErase w.backoff e.event_id⟩) := by
        simp [plan, ht, hn, hcut]
      refine ⟨by simp [hplan], fun _ _ => ⟨by simp [hplan], ?_, ?_⟩, ?_, ?_⟩
      · simp [hplan, alLookup_alErase_self]
      · simp [hplan, alLookup_alErase_self]
      · simp [checkDueLiveOnce, ht, hn, maybePoll, hplan]
      · simp [checkDueLiveOnce, ht, hn, maybePoll, hplan]

/-- Event scheduled at 17:30 ET on day 0 for the C10 witness. -/
def c10ev : EconomicEvent :=
  { event_id := "fed-min-1", name := "FOMC Minutes", scheduled_time_et := 63000,
    provider := "FED", provider_configured := true, status := .scheduled }

theorem claim_C10_witness :
    (cfgDefault.cutoff_hour * 3600 ≤ c10ev.scheduled_time_et % 86400) ∧
    ((plan cfgDefault ⟨[], []⟩ c10ev 70000).1.due = false ∧
      (isTerminal c10ev.status = false → c10ev.scheduled_time_et ≤ 70000 →
        (plan cfgDefault ⟨[], []⟩ c10ev 70000).1.expired_for_day = true ∧
        alLookup (plan cfgDefault ⟨[], []⟩ c10ev 70000).2.nextPollAt c10ev.event_id = none ∧
        alLookup (plan cfgDefault ⟨[], []⟩ c10ev 70000).2.backoff c10ev.event_id = none) ∧
      (checkDueLiveOnce cfgDefault [] id ⟨[], []⟩ [c10ev] 70000).1 = [c10ev] ∧
      (checkDueLiveOnce cfgDefault [] id ⟨[], []⟩ [c10ev] 70000).2.2 = []) :=
  ⟨by decide, claim_C10 cfgDefault c10ev [] id ⟨[], []⟩ 70000 (by decide)⟩

/-! ## C6: terminal events and the three watcher entry points -/

/-- An already released event, for the C6 counterexample. -/
def c6ev : EconomicEvent :=
  { event_id := "bls-pp-1", name := "PPI", scheduled_time_et := 30600,
    provider := "BLS", provider_configured := true, status := .released,
    release := { actual := some "0.2" } }

/-- C6 counterexample: `force_poll_once` does fetch a `released` event
(the terminal-status skip is commented out in the source), so the claim
that no watcher entry point ever fetches a terminal event is false. -/
theorem claim_C6_counterexample :
    c6ev.status = .released ∧
    (forcePollOnce cfgDefault ["BLS"] (fun x => x) [c6ev] 40000 true).2
      = ["bls-pp-1"] := by
  constructor
  · rfl
  · decide

/-- C6 (amended): `plan` never reports a `released`/`disabled` event due
and leaves the watcher untouched for it, and `check_due_live_once`
passes it through unchanged without fetching; but `force_poll_once`
(whose terminal-status guard is commented out) does fetch it whenever
its scheduled time has passed. -/
theorem claim_C6 (cfg : WCfg) (providers : List String)
    (fetch : EconomicEvent → EconomicEvent) (w : Watcher)
    (e : EconomicEvent) (now : Int) (hterm : isTerminal e.status = true) :
    (plan cfg w e now).1.due = false ∧
    (plan cfg w e now).2 = w ∧
    checkDueLiveOnce cfg providers fetch w [e] now = ([e], w, []) ∧
    (e.scheduled_time_et ≤ now → providers.contains e.provider = true →
      forcePollOnce cfg providers fetch [e] now true
        = ([fetch e], [e.event_id])) := by
  refine ⟨by simp [plan, hterm], by simp [plan, hterm], ?_, ?_⟩
  · simp [checkDueLiveOnce, hterm]
  · intro hle hprov
    have hn : ¬(now < e.scheduled_time_et) := by omega
    have hmem : e.provider ∈ providers := by simpa using hprov
    simp [forcePollOnce, hn, pollEvent, hmem]

theorem claim_C6_witness :
    isTerminal c6ev.status = true ∧
    ((plan cfgDefault ⟨[], []⟩ c6ev 40000).1.due = false ∧
      (plan cfgDefault ⟨[], []⟩ c6ev 40000).2 = (⟨[], []⟩ : Watcher) ∧
      checkDueLiveOnce cfgDefault ["BLS"] id ⟨[], []⟩ [c6ev] 40000
        = ([c6ev], ⟨[], []⟩, []) ∧
      (c6ev.scheduled_time_et ≤ 40000 → ["BLS"].contains c6ev.provider = true →
        forcePollOnce cfgDefault ["BLS"] id [c6ev] 40000 true
          = ([id c6ev], [c6ev.event_id]))) :=
  ⟨by decide, claim_C6 cfgDefault ["BLS"] id ⟨[], []⟩ c6ev 40000 (by decide)⟩

/-! ## C5: burst-then-backoff rescheduling in `maybe_poll` -/

theorem cutoffDt_congr (cfg : WCfg) (e e' : EconomicEvent)
    (h : e'.scheduled_time_et = e.scheduled_time_et) :
    cutoffDt cfg e' = cutoffDt cfg e := by
  unfold cutoffDt
  rw [h]

/-- `plan` on a due, non-terminal, pre-cutoff event: it reports due,
not expired, and leaves the backoff map untouched. -/
theorem plan_due_char (cfg : WCfg) (w : Watcher) (e : EconomicEvent) (now : Int)
    (hterm : isTerminal e.status = false)
    (hsince : e.scheduled_time_et ≤ now)
    (hcut : now < cutoffDt cfg e)
    (hdue : ∀ t, alLookup w.nextPollAt e.event_id = some t → t ≤ now) :
    (plan cfg w e now).1.due = true ∧
    (plan cfg w e now).1.expired_for_day = false ∧
    (plan cfg w e now).2.backoff = w.backoff := by
  have hn : ¬(now < e.scheduled_time_et) := by omega
  have hc : ¬(cutoffDt cfg e ≤ now) := by omega
  unfold plan
  simp only [hterm, Bool.false_eq_true, if_false, hn, hc, if_neg, not_false_iff]
  cases hal : alLookup w.nextPollAt e.event_id with
  | none =>
    have hself := alLookup_alInsert_self w.nextPollAt e.event_id e.scheduled_time_et
    by_cases hb : now ≤ e.scheduled_time_et + cfg.burst_window_seconds <;>
      simp [hal, hself, hb, hsince]
  | some t =>
    have ht := hdue t hal
    by_cases hb : now ≤ e.scheduled_time_et + cfg.burst_window_seconds <;>
      simp [hal, hb, ht]

/-- What `maybe_poll` does when the event is due, non-terminal,
pre-cutoff, and the fetch does not come back `released`: the three
rescheduling regimes, keyed on `now + burst_poll_seconds` against the
cutoff (not on where the next attempt would actually land). -/
theorem maybePoll_fail_char (cfg : WCfg) (providers : List String)
    (fetch : EconomicEvent → EconomicEvent) (w : Watcher)
    (e : EconomicEvent) (now : Int)
    (hterm : isTerminal e.status = false)
    (hsince : e.scheduled_time_et ≤ now)
    (hcut : now < cutoffDt cfg e)
    (hdue : ∀ t, alLookup w.nextPollAt e.event_id = some t → t ≤ now)
    (hprov : providers.contains e.provider = true)
    (hfetch : (fetch e).status ≠ .released) :
    (maybePoll cfg providers fetch w e now).1 = fetch e ∧
    (maybePoll cfg providers fetch w e now).2.2 = [e.event_id] ∧
    (cutoffDt cfg e ≤ now + cfg.burst_poll_seconds →
      alLookup (maybePoll cfg providers fetch w e now).2.1.nextPollAt e.event_id = none ∧
      alLookup (maybePoll cfg providers fetch w e now).2.1.backoff e.event_id = none) ∧
    (now + cfg.burst_poll_seconds < cutoffDt cfg e →
      now ≤ e.scheduled_time_et + cfg.burst_window_seconds →
      alLookup (maybePoll cfg providers fetch w e now).2.1.nextPollAt e.event_id
        = some (now + cfg.burst_poll_seconds) ∧
      (maybePoll cfg providers fetch w e now).2.1.backoff = w.backoff) ∧
    (now + cfg.burst_poll_seconds < cutoffDt cfg e →
      e.scheduled_time_et + cfg.burst_window_seconds < now →
      alLookup (maybePoll cfg providers fetch w e now).2.1.nextPollAt e.event_id
        = some (now + ((alLookup w.backoff e.event_id).getD cfg.backoff_start_seconds)) ∧
      alLookup (maybePoll cfg providers fetch w e now).2.1.backoff e.event_id
        = some (min ((alLookup w.backoff e.event_id).getD cfg.backoff_start_seconds * 2)
            cfg.backoff_max_seconds)) := by
  obtain ⟨hd, hx, hbk⟩ := plan_due_char cfg w e now hterm hsince hcut hdue
  rcases hp : plan cfg w e now with ⟨p, w1⟩
  rw [hp] at hd hx hbk
  simp only at hd hx hbk
  have hmem : e.provider ∈ providers := by simpa using hprov
  by_cases hc2 : cutoffDt cfg e ≤ now + cfg.burst_poll_seconds
  · have hmp : maybePoll cfg providers fetch w e now
        = (fetch e, ⟨alErase w1.nextPollAt e.event_id, alErase w1.backoff e.event_id⟩,
            [e.event_id]) := by
      unfold maybePoll
      rw [hp]
      simp [hd, hx, pollEvent, hmem, hfetch, hc2]
    rw [hmp]
    exact ⟨rfl, rfl, fun _ => ⟨alLookup_alErase_self _ _, alLookup_alErase_self _ _⟩,
      fun h _ => absurd hc2 (by omega), fun h _ => absurd hc2 (by omega)⟩
  · by_cases hb : now ≤ e.scheduled_time_et + cfg.burst_window_seconds
    · have hmp : maybePoll cfg providers fetch w e now
          = (fetch e,
              { w1 with nextPollAt :=
                  alInsert w1.nextPollAt e.event_id (now + cfg.burst_poll_seconds) },
              [e.event_id]) := by
        unfold maybePoll
        rw [hp]
        simp [hd, hx, pollEvent, hmem, hfetch, hc2, hb]
      rw [hmp]
      exact ⟨rfl, rfl, fun h => absurd h hc2,
        fun _ _ => ⟨alLookup_alInsert_self _ _ _, hbk⟩,
        fun _ h => absurd hb (by omega)⟩
    · have hmp : maybePoll cfg providers fetch w e now
          = (fetch e,
              ⟨alInsert w1.nextPollAt e.event_id
                  (now + ((alLookup w.backoff e.event_id).getD cfg.backoff_start_seconds)),
                alInsert w1.backoff e.event_id
                  (min ((alLookup w.backoff e.event_id).getD cfg.backoff_start_seconds * 2)
                    cfg.backoff_max_seconds)⟩,
              [e.event_id]) := by
        unfold maybePoll
        rw [hp]
        simp [hd, hx, pollEvent, hmem, hfetch, hc2, hb, hbk]
      rw [hmp]
      exact ⟨rfl, rfl, fun h => absurd h hc2, fun _ h => absurd h (by omega),
        fun _ _ => ⟨alLookup_alInsert_self _ _ _, alLookup_alInsert_self _ _ _⟩⟩

/-- A scheduled event with a stored backoff of 600 s, for the C5
counterexample. -/
def c5ev : EconomicEvent :=
  { event_id := "dol-ic-1", name := "Initial Claims", scheduled_time_et := 30600,
    provider := "DOL", provider_configured := true, status := .scheduled }

/-- Watcher state for the C5 counterexample: the event is due at
16:56:40 (second 61000 of day 0) and its stored backoff is 600 s. -/
def c5w : Watcher :=
  { nextPollAt := [("dol-ic-1", 61000)], backoff := [("dol-ic-1", 600)] }

/-- C5 counterexample: at 16:56:40 with a stored backoff of 600 s the
next scheduled attempt (`now + 600` = 17:06:40) lands after the 17:00
cutoff, so the claim requires the timers to be cleared; instead
`maybe_poll` (which only tests `now + burst_poll_seconds` against the
cutoff) schedules `next_poll_at = 61600` and doubles the backoff. -/
theorem claim_C5_counterexample :
    cutoffDt cfgDefault c5ev ≤ 61000 + 600 ∧
    alLookup c5w.backoff "dol-ic-1" = some 600 ∧
    alLookup (maybePoll cfgDefault ["DOL"] (fun x => x) c5w c5ev 61000).2.1.nextPollAt
      "dol-ic-1" = some 61600 ∧
    alLookup (maybePoll cfgDefault ["DOL"] (fun x => x) c5w c5ev 61000).2.1.backoff
      "dol-ic-1" = some 900 := by
  decide

/-- C5 (amended): for a due, non-terminal event whose fetch does not
yield `released`, `maybe_poll` clears the timer and backoff entries iff
`now + burst_poll_interval` lands at or after the day's cutoff (the
source tests the burst cadence, not where the next attempt would
actually land); otherwise, within the burst window the next attempt is
`now + burst_poll_interval`, and past it the next attempt is
`now + current_backoff` with the stored backoff doubling from
`backoff_start` and capped at `backoff_max` — after two consecutive
post-burst failures the stored backoff is `min (4 * backoff_start)
backoff_max`. -/
theorem claim_C5 (cfg : WCfg) (providers : List String)
    (fetch : EconomicEvent → EconomicEvent) (w : Watcher)
    (e : EconomicEvent) (now : Int)
    (hterm : isTerminal e.status = false)
    (hsince : e.scheduled_time_et ≤ now)
    (hcut : now < cutoffDt cfg e)
    (hdue : ∀ t, alLookup w.nextPollAt e.event_id = some t → t ≤ now)
    (hprov : providers.contains e.provider = true)
    (hfetch : (fetch e).status ≠ .released) :
    (cutoffDt cfg e ≤ now + cfg.burst_poll_seconds →
      alLookup (maybePoll cfg providers fetch w e now).2.1.nextPollAt e.event_id = none ∧
      alLookup (maybePoll cfg providers fetch w e now).2.1.backoff e.event_id = none) ∧
    (now + cfg.burst_poll_seconds < cutoffDt cfg e →
      now ≤ e.scheduled_time_et + cfg.burst_window_seconds →
      alLookup (maybePoll cfg providers fetch w e now).2.1.nextPollAt e.event_id
        = some (now + cfg.burst_poll_seconds) ∧
      (maybePoll cfg providers fetch w e now).2.1.backoff = w.backoff) ∧
    (now + cfg.burst_poll_seconds < cutoffDt cfg e →
      e.scheduled_time_et + cfg.burst_window_seconds < now →
      alLookup (maybePoll cfg providers fetch w e now).2.1.nextPollAt e.event_id
        = some (now + ((alLookup w.backoff e.event_id).getD cfg.backoff_start_seconds)) ∧
      alLookup (maybePoll cfg providers fetch w e now).2.1.backoff e.event_id
        = some (min ((alLookup w.backoff e.event_id).getD cfg.backoff_start_seconds * 2)
            cfg.backoff_max_seconds)) ∧
    (∀ (e₂ : EconomicEvent) (now₂ : Int) (fetch₂ : EconomicEvent → EconomicEvent),
      alLookup w.backoff e.event_id = none →
      0 ≤ cfg.burst_poll_seconds → 0 ≤ cfg.burst_window_seconds →
      0 ≤ cfg.backoff_start_seconds → 0 ≤ cfg.backoff_max_seconds →
      now + cfg.burst_poll_seconds < cutoffDt cfg e →
      e.scheduled_time_et + cfg.burst_window_seconds < now →
      e₂.event_id = e.event_id →
      e₂.scheduled_time_et = e.scheduled_time_et →
      isTerminal e₂.status = false →
      providers.contains e₂.provider = true →
      (fetch₂ e₂).status ≠ .released →
      now + cfg.backoff_start_seconds ≤ now₂ →
      now₂ + cfg.burst_poll_seconds < cutoffDt cfg e →
      e.scheduled_time_et + cfg.burst_window_seconds < now₂ →
      alLookup (maybePoll cfg providers fetch₂
          (maybePoll cfg providers fetch w e now).2.1 e₂ now₂).2.1.backoff e.event_id
        = some (min (cfg.backoff_start_seconds * 4) cfg.backoff_max_seconds)) := by
  obtain ⟨-, -, hA, hB, hC⟩ :=
    maybePoll_fail_char cfg providers fetch w e now hterm hsince hcut hdue hprov hfetch
  refine ⟨hA, hB, hC, ?_⟩
  intro e₂ now₂ fetch₂ hnone hbp hbw hbs hbm hc1 hpost1 hid hsch hterm₂ hprov₂ hfetch₂
    hdue₂ hc2 hpost2
  obtain ⟨hnp1, hbk1⟩ := hC hc1 hpost1
  rw [hnone] at hnp1 hbk1
  simp only [Option.getD_none] at hnp1 hbk1
  -- the second call, on the watcher state left by the first
  have hcutE : cutoffDt cfg e₂ = cutoffDt cfg e := cutoffDt_congr cfg e e₂ hsch
  have hsince₂ : e₂.scheduled_time_et ≤ now₂ := by omega
  have hcut₂ : now₂ < cutoffDt cfg e₂ := by omega
  have hdue₂' : ∀ t,
      alLookup (maybePoll cfg providers fetch w e now).2.1.nextPollAt e₂.event_id
        = some t → t ≤ now₂ := by
    intro t ht
    rw [hid, hnp1] at ht
    have : t = now + cfg.backoff_start_seconds := by
      simpa using ht.symm
    omega
  obtain ⟨-, -, -, -, hC₂⟩ :=
    maybePoll_fail_char cfg providers fetch₂
      (maybePoll cfg providers fetch w e now).2.1 e₂ now₂
      hterm₂ hsince₂ hcut₂ hdue₂' hprov₂ hfetch₂
  obtain ⟨-, hbk2⟩ := hC₂ (by omega) (by omega)
  rw [hid, hbk1] at hbk2
  simp only [Option.getD_some] at hbk2
  rw [hbk2]
  congr 1
  omega

/-- Non-terminal due event in the post-burst regime for the C5 witness:
scheduled 08:30, `now` = 08:40 (second 31800), no stored backoff yet. -/
def c5wev : EconomicEvent :=
  { event_id := "bls-cpi-2", name := "CPI", scheduled_time_et := 30600,
    provider := "BLS", provider_configured := true, status := .scheduled }

theorem claim_C5_witness :
    (isTerminal c5wev.status = false ∧ c5wev.scheduled_time_et ≤ 31800 ∧
      (31800 : Int) < cutoffDt cfgDefault c5wev ∧
      ["BLS"].contains c5wev.provider = true) ∧
    (alLookup (maybePoll cfgDefault ["BLS"] (fun x => x) ⟨[], []⟩ c5wev 31800).2.1.nextPollAt
        "bls-cpi-2" = some (31800 + 60) ∧
      alLookup (maybePoll cfgDefault ["BLS"] (fun x => x) ⟨[], []⟩ c5wev 31800).2.1.backoff
        "bls-cpi-2" = some 120) :=
  ⟨by decide, by
    have h := (claim_C5 cfgDefault ["BLS"] (fun x => x) ⟨[], []⟩ c5wev 31800
      (by decide) (by decide) (by decide)
      (fun t ht => by simp [alLookup] at ht) (by decide) (by decide)).2.2.1
      (by decide) (by decide)
    simpa [alLookup] using h⟩

/-! ## Generic facts about the notification passes

Each pass of `live_monitor_loop` folds a step over the group keys; every
step either leaves the emitted list and its dedup set unchanged, or
emits exactly one notification for a key not yet in the set and inserts
the key.  The lemmas below are proved once for this shape. -/

/-- The step shape shared by the expired/missing/released passes:
`ems` projects the emitted list, `pset` the dedup set the pass guards
on, `k₀` the kind this pass emits. -/
def StepOk (step : A → String → A) (ems : A → List Emit)
    (pset : A → Finset String) (k₀ : Kind) : Prop :=
  ∀ a gk, (ems (step a gk) = ems a ∧ pset (step a gk) = pset a) ∨
    (gk ∉ pset a ∧ ems (step a gk) = ems a ++ [(k₀, gk)] ∧
      pset (step a gk) = insert gk (pset a))

theorem foldl_pset_mono {step : A → String → A} {ems pset k₀}
    (hok : StepOk step ems pset k₀) :
    ∀ (keys : List String) (a : A), pset a ⊆ pset (keys.foldl step a) := by
  intro keys
  induction keys with
  | nil => exact fun a => Finset.Subset.refl _
  | cons k ks ih =>
    intro a
    have h1 : pset a ⊆ pset (step a k) := by
      rcases hok a k with ⟨-, h⟩ | ⟨-, -, h⟩
      · rw [h]
      · rw [h]
        exact Finset.subset_insert _ _
    exact h1.trans (ih (step a k))

theorem foldl_emit_char {step : A → String → A} {ems pset k₀}
    (hok : StepOk step ems pset k₀) :
    ∀ (keys : List String) (a : A) (p : Emit), p ∈ ems (keys.foldl step a) →
      p ∈ ems a ∨ (p.1 = k₀ ∧ p.2 ∉ pset a ∧ p.2 ∈ pset (keys.foldl step a)) := by
  intro keys
  induction keys with
  | nil => exact fun a p hp => Or.inl hp
  | cons k ks ih =>
    intro a p hp
    rcases hok a k with ⟨he, hs⟩ | ⟨hnot, he, hs⟩
    · rcases ih (step a k) p hp with h | ⟨h1, h2, h3⟩
      · exact Or.inl (he ▸ h)
      · exact Or.inr ⟨h1, hs ▸ h2, h3⟩
    · rcases ih (step a k) p hp with h | ⟨h1, h2, h3⟩
      · rw [he] at h
        rcases List.mem_append.mp h with h' | h'
        · exact Or.inl h'
        · have hpk : p = (k₀, k) := by simpa using h'
          refine Or.inr ⟨by rw [hpk], by rw [hpk]; exact hnot, ?_⟩
          have : p.2 ∈ pset (step a k) := by
            rw [hpk, hs]
            exact Finset.mem_insert_self _ _
          exact foldl_pset_mono hok ks (step a k) this
      · refine Or.inr ⟨h1, fun hin => h2 ?_, h3⟩
        rw [hs]
        exact Finset.mem_insert_of_mem hin

theorem foldl_emit_count {step : A → String → A} {ems pset k₀}
    (hok : StepOk step ems pset k₀) (gk : String) :
    ∀ (keys : List String) (a : A),
      (gk ∈ pset a →
        (ems (keys.foldl step a)).count (k₀, gk) = (ems a).count (k₀, gk)) ∧
      (ems (keys.foldl step a)).count (k₀, gk) ≤ (ems a).count (k₀, gk) + 1 := by
  intro keys
  induction keys with
  | nil => exact fun a => ⟨fun _ => rfl, Nat.le_succ _⟩
  | cons k ks ih =>
    intro a
    simp only [List.foldl_cons]
    rcases hok a k with ⟨he, hs⟩ | ⟨hnot, he, hs⟩
    · constructor
      · intro hin
        rw [(ih (step a k)).1 (hs ▸ hin), he]
      · calc (ems ((k :: ks).foldl step a)).count (k₀, gk)
            ≤ (ems (step a k)).count (k₀, gk) + 1 := (ih (step a k)).2
          _ = (ems a).count (k₀, gk) + 1 := by rw [he]
    · by_cases hkg : gk = k
      · subst hkg
        constructor
        · intro hin
          exact absurd hin hnot
        · have hmem : gk ∈ pset (step a gk) := by
            rw [hs]
            exact Finset.mem_insert_self _ _
          have := (ih (step a gk)).1 hmem
          rw [this, he]
          simp
      · have hcnt : (ems (step a k)).count (k₀, gk) = (ems a).count (k₀, gk) := by
          rw [he, List.count_append]
          have : ((k₀, k) : Emit) ≠ (k₀, gk) := by
            simp [Ne.symm hkg]
          simp [List.count_singleton, this]
        constructor
        · intro hin
          have hin' : gk ∈ pset (step a k) := by
            rw [hs]
            exact Finset.mem_insert_of_mem hin
          rw [(ih (step a k)).1 hin', hcnt]
        · calc (ems ((k :: ks).foldl step a)).count (k₀, gk)
              ≤ (ems (step a k)).count (k₀, gk) + 1 := (ih (step a k)).2
            _ = (ems a).count (k₀, gk) + 1 := by rw [hcnt]

theorem foldl_preserve {step : A → String → A} (q : A → B)
    (hq : ∀ a gk, q (step a gk) = q a) :
    ∀ (keys : List String) (a : A), q (keys.foldl step a) = q a := by
  intro keys
  induction keys with
  | nil => exact fun a => rfl
  | cons k ks ih =>
    intro a
    rw [List.foldl_cons, ih (step a k), hq]

/-! ### The three passes fit the shape -/

theorem expiredStep_ok (cfg : WCfg) (now : Int) :
    StepOk (expiredStep cfg now) (fun a => a.2.2)
      (fun a => a.2.1.posted_expired_groups) .expired := by
  intro a gk
  rcases a with ⟨evs, st, ems⟩
  unfold expiredStep
  dsimp only
  split_ifs with h1 h2 h3 h4
  · exact Or.inl ⟨rfl, rfl⟩
  · exact Or.inl ⟨rfl, rfl⟩
  · exact Or.inl ⟨rfl, rfl⟩
  · exact Or.inr ⟨h2, rfl, rfl⟩
  · exact Or.inl ⟨rfl, rfl⟩

theorem missingStep_ok (cfg : WCfg) (now : Int) (evs : List EconomicEvent) :
    StepOk (missingStep cfg now evs) (fun a => a.2)
      (fun a => a.1.posted_missing_groups) .missing := by
  intro a gk
  rcases a with ⟨st, ems⟩
  unfold missingStep
  dsimp only
  split_ifs with h1 h2 h3
  · exact Or.inl ⟨rfl, rfl⟩
  · exact Or.inl ⟨rfl, rfl⟩
  · exact Or.inl ⟨rfl, rfl⟩
  · cases hmin : ((members evs gk).map (fun e => e.scheduled_time_et)).min? with
    | none => exact Or.inl ⟨rfl, rfl⟩
    | some sched =>
      dsimp only
      split_ifs with h4
      · exact Or.inr ⟨h1, rfl, rfl⟩
      · exact Or.inl ⟨rfl, rfl⟩

theorem releaseStep_ok (evs : List EconomicEvent) :
    StepOk (releaseStep evs) (fun a => a.2)
      (fun a => a.1.posted_release_groups) .released := by
  intro a gk
  rcases a with ⟨st, ems⟩
  unfold releaseStep
  dsimp only
  split_ifs with h1 h2 h3
  · exact Or.inl ⟨rfl, rfl⟩
  · exact Or.inl ⟨rfl, rfl⟩
  · exact Or.inr ⟨h1, rfl, rfl⟩
  · exact Or.inl ⟨rfl, rfl⟩

theorem expiredStep_preserve (cfg : WCfg) (now : Int)
    (a : List EconomicEvent × BotStateW × List Emit) (gk : String) :
    (expiredStep cfg now a gk).2.1.posted_release_groups = a.2.1.posted_release_groups ∧
    (expiredStep cfg now a gk).2.1.posted_missing_groups = a.2.1.posted_missing_groups := by
  rcases a with ⟨evs, st, ems⟩
  unfold expiredStep
  dsimp only
  split_ifs <;> exact ⟨rfl, rfl⟩

theorem missingStep_preserve (cfg : WCfg) (now : Int) (evs : List EconomicEvent)
    (a : BotStateW × List Emit) (gk : String) :
    (missingStep cfg now evs a gk).1.posted_release_groups = a.1.posted_release_groups ∧
    (missingStep cfg now evs a gk).1.posted_expired_groups = a.1.posted_expired_groups := by
  rcases a with ⟨st, ems⟩
  unfold missingStep
  dsimp only
  split_ifs
  · exact ⟨rfl, rfl⟩
  · exact ⟨rfl, rfl⟩
  · exact ⟨rfl, rfl⟩
  · cases ((members evs gk).map (fun e => e.scheduled_time_et)).min? with
    | none => exact ⟨rfl, rfl⟩
    | some sched =>
      dsimp only
      split_ifs <;> exact ⟨rfl, rfl⟩

theorem releaseStep_preserve (evs : List EconomicEvent)
    (a : BotStateW × List Emit) (gk : String) :
    (releaseStep evs a gk).1.posted_missing_groups = a.1.posted_missing_groups ∧
    (releaseStep evs a gk).1.posted_expired_groups = a.1.posted_expired_groups := by
  rcases a with ⟨st, ems⟩
  unfold releaseStep
  dsimp only
  split_ifs <;> exact ⟨rfl, rfl⟩

/-- The posted-group set of `BotState` guarding notifications of kind `k`. -/
def postedOf (st : BotStateW) : Kind → Finset String
  | .released => st.posted_release_groups
  | .missing => st.posted_missing_groups
  | .expired => st.posted_expired_groups

/-- The dedup discipline of one live tick, for each notification kind:
an emitted `(k, gk)` implies `gk` was not yet in the kind's posted set
and is in it afterwards; posted sets only grow; and a tick emits at most
one notification of a kind per key — none when the key was already
posted. -/
theorem liveTick_facts (cfg : WCfg) (providers : List String)
    (fetch : EconomicEvent → EconomicEvent) (w : Watcher)
    (evs : List EconomicEvent) (st : BotStateW) (now : Int)
    (k : Kind) (gk : String) :
    ((k, gk) ∈ (liveTick cfg providers fetch w evs st now).emits →
      gk ∉ postedOf st k ∧
      gk ∈ postedOf (liveTick cfg providers fetch w evs st now).state k) ∧
    postedOf st k ⊆ postedOf (liveTick cfg providers fetch w evs st now).state k ∧
    (liveTick cfg providers fetch w evs st now).emits.count (k, gk) ≤ 1 ∧
    (gk ∈ postedOf st k →
      (liveTick cfg providers fetch w evs st now).emits.count (k, gk) = 0) := by
  by_cases hev : evs.isEmpty
  · have h : liveTick cfg providers fetch w evs st now = ⟨evs, w, st, [], []⟩ := by
      unfold liveTick
      rw [if_pos hev]
    rw [h]
    exact ⟨fun hmem => absurd hmem (by simp), Finset.Subset.refl _, by simp,
      fun _ => by simp⟩
  · rcases hcd : checkDueLiveOnce cfg providers fetch w evs now with ⟨evs1, w1, fids⟩
    rcases hep : expiredPass cfg now evs1 st with ⟨evs2, st1, em1⟩
    rcases hmp : missingPass cfg now evs2 st1 with ⟨st2, em2⟩
    rcases hrp : releasePass evs2 st2 with ⟨st3, em3⟩
    have hlt : liveTick cfg providers fetch w evs st now
        = ⟨evs2, w1, st3, em1 ++ em2 ++ em3, fids⟩ := by
      unfold liveTick
      rw [if_neg hev]
      simp only [hcd, hep, hmp, hrp]
    rw [hlt]
    simp only
    -- facts about the expired pass
    have hok1 := expiredStep_ok cfg now
    have hchar1 := foldl_emit_char hok1 (groupKeys evs1) (evs1, st, [])
    have hcnt1 := foldl_emit_count hok1 gk (groupKeys evs1) (evs1, st, [])
    have hmono1 := foldl_pset_mono hok1 (groupKeys evs1) (evs1, st, [])
    have hrel1 := foldl_preserve (fun a => a.2.1.posted_release_groups)
      (fun a gk' => (expiredStep_preserve cfg now a gk').1) (groupKeys evs1) (evs1, st, [])
    have hmis1 := foldl_preserve (fun a => a.2.1.posted_missing_groups)
      (fun a gk' => (expiredStep_preserve cfg now a gk').2) (groupKeys evs1) (evs1, st, [])
    rw [show (groupKeys evs1).foldl (expiredStep cfg now) (evs1, st, [])
        = expiredPass cfg now evs1 st from rfl, hep] at hchar1 hcnt1 hmono1 hrel1 hmis1
    simp only at hchar1 hcnt1 hmono1 hrel1 hmis1
    -- facts about the missing pass
    have hok2 := missingStep_ok cfg now evs2
    have hchar2 := foldl_emit_char hok2 (groupKeys evs2) (st1, [])
    have hcnt2 := foldl_emit_count hok2 gk (groupKeys evs2) (st1, [])
    have hmono2 := foldl_pset_mono hok2 (groupKeys evs2) (st1, [])
    have hrel2 := foldl_preserve (fun a => a.1.posted_release_groups)
      (fun a gk' => (missingStep_preserve cfg now evs2 a gk').1) (groupKeys evs2) (st1, [])
    have hexp2 := foldl_preserve (fun a => a.1.posted_expired_groups)
      (fun a gk' => (missingStep_preserve cfg now evs2 a gk').2) (groupKeys evs2) (st1, [])
    rw [show (groupKeys evs2).foldl (missingStep cfg now evs2) (st1, [])
        = missingPass cfg now evs2 st1 from rfl, hmp] at hchar2 hcnt2 hmono2 hrel2 hexp2
    simp only at hchar2 hcnt2 hmono2 hrel2 hexp2
    -- facts about the released pass
    have hok3 := releaseStep_ok evs2
    have hchar3 := foldl_emit_char hok3 (groupKeys evs2) (st2, [])
    have hcnt3 := foldl_emit_count hok3 gk (groupKeys evs2) (st2, [])
    have hmono3 := foldl_pset_mono hok3 (groupKeys evs2) (st2, [])
    have hmis3 := foldl_preserve (fun a => a.1.posted_missing_groups)
      (fun a gk' => (releaseStep_preserve evs2 a gk').1) (groupKeys evs2) (st2, [])
    have hexp3 := foldl_preserve (fun a => a.1.posted_expired_groups)
      (fun a gk' => (releaseStep_preserve evs2 a gk').2) (groupKeys evs2) (st2, [])
    rw [show (groupKeys evs2).foldl (releaseStep evs2) (st2, [])
        = releasePass evs2 st2 from rfl, hrp] at hchar3 hcnt3 hmono3 hmis3 hexp3
    simp only at hchar3 hcnt3 hmono3 hmis3 hexp3
    -- kind-disjointness of the three emit lists
    have hkind1 : ∀ p ∈ em1, p.1 = Kind.expired := by
      intro p hp
      rcases hchar1 p hp with h | ⟨h, -⟩
      · exact absurd h (List.not_mem_nil p)
      · exact h
    have hkind2 : ∀ p ∈ em2, p.1 = Kind.missing := by
      intro p hp
      rcases hchar2 p hp with h | ⟨h, -⟩
      · exact absurd h (List.not_mem_nil p)
      · exact h
    have hkind3 : ∀ p ∈ em3, p.1 = Kind.released := by
      intro p hp
      rcases hchar3 p hp with h | ⟨h, -⟩
      · exact absurd h (List.not_mem_nil p)
      · exact h
    cases k with
    | expired =>
      have hz2 : em2.count ((Kind.expired, gk) : Emit) = 0 := by
        refine List.count_eq_zero.mpr (fun hmem => ?_)
        have := hkind2 _ hmem
        simp at this
      have hz3 : em3.count ((Kind.expired, gk) : Emit) = 0 := by
        refine List.count_eq_zero.mpr (fun hmem => ?_)
        have := hkind3 _ hmem
        simp at this
      have hst : postedOf st3 Kind.expired = st1.posted_expired_groups := by
        simp only [postedOf]
        rw [hexp3, hexp2]
      refine ⟨?_, ?_, ?_, ?_⟩
      · intro hmem
        have hmem1 : ((Kind.expired, gk) : Emit) ∈ em1 := by
          rcases List.mem_append.mp hmem with h | h
          · rcases List.mem_append.mp h with h' | h'
            · exact h'
            · have := hkind2 _ h'
              simp at this
          · have := hkind3 _ h
            simp at this
        rcases hchar1 _ hmem1 with h | ⟨-, h2, h3⟩
        · exact absurd h (List.not_mem_nil _)
        · refine ⟨h2, ?_⟩
          show gk ∈ st3.posted_expired_groups
          rw [hexp3, hexp2]
          exact h3
      · show st.posted_expired_groups ⊆ st3.posted_expired_groups
        rw [hexp3, hexp2]
        exact hmono1
      · rw [List.count_append, List.count_append, hz2, hz3]
        simpa using hcnt1.2
      · intro hin
        rw [List.count_append, List.count_append, hz2, hz3, hcnt1.1 hin]
        simp
    | missing =>
      have hz1 : em1.count ((Kind.missing, gk) : Emit) = 0 := by
        refine List.count_eq_zero.mpr (fun hmem => ?_)
        have := hkind1 _ hmem
        simp at this
      have hz3 : em3.count ((Kind.missing, gk) : Emit) = 0 := by
        refine List.count_eq_zero.mpr (fun hmem => ?_)
        have := hkind3 _ hmem
        simp at this
      have hpre : st1.posted_missing_groups = st.posted_missing_groups := hmis1
      have hst : postedOf st3 Kind.missing = st2.posted_missing_groups := by
        simp only [postedOf]
        rw [hmis3]
      refine ⟨?_, ?_, ?_, ?_⟩
      · intro hmem
        have hmem2 : ((Kind.missing, gk) : Emit) ∈ em2 := by
          rcases List.mem_append.mp hmem with h | h
          · rcases List.mem_append.mp h with h' | h'
            · have := hkind1 _ h'
              simp at this
            · exact h'
          · have := hkind3 _ h
            simp at this
        rcases hchar2 _ hmem2 with h | ⟨-, h2, h3⟩
        · exact absurd h (List.not_mem_nil _)
        · refine ⟨?_, ?_⟩
          · show gk ∉ st.posted_missing_groups
            rw [← hpre]
            exact h2
          · show gk ∈ st3.posted_missing_groups
            rw [hmis3]
            exact h3
      · show st.posted_missing_groups ⊆ st3.posted_missing_groups
        rw [hmis3, ← hpre]
        exact hmono2
      · rw [List.count_append, List.count_append, hz1, hz3]
        simpa using hcnt2.2
      · intro hin
        have hin' : gk ∈ st1.posted_missing_groups := by rw [hpre]; exact hin
        rw [List.count_append, List.count_append, hz1, hz3, hcnt2.1 hin']
        simp
    | released =>
      have hz1 : em1.count ((Kind.released, gk) : Emit) = 0 := by
        refine List.count_eq_zero.mpr (fun hmem => ?_)
        have := hkind1 _ hmem
        simp at this
      have hz2 : em2.count ((Kind.released, gk) : Emit) = 0 := by
        refine List.count_eq_zero.mpr (fun hmem => ?_)
        have := hkind2 _ hmem
        simp at this
      have hpre : st2.posted_release_groups = st.posted_release_groups := by
        rw [hrel2, hrel1]
      refine ⟨?_, ?_, ?_, ?_⟩
      · intro hmem
        have hmem3 : ((Kind.released, gk) : Emit) ∈ em3 := by
          rcases List.mem_append.mp hmem with h | h
          · rcases List.mem_append.mp h with h' | h'
            · have := hkind1 _ h'
              simp at this
            · have := hkind2 _ h'
              simp at this
          · exact h
        rcases hchar3 _ hmem3 with h | ⟨-, h2, h3⟩
        · exact absurd h (List.not_mem_nil _)
        · refine ⟨?_, h3⟩
          show gk ∉ st.posted_release_groups
          rw [← hpre]
          exact h2
      · show st.posted_release_groups ⊆ st3.posted_release_groups
        rw [← hpre]
        exact hmono3
      · rw [List.count_append, List.count_append, hz1, hz2]
        simpa using hcnt3.2
      · intro hin
        have hin' : gk ∈ st2.posted_release_groups := by rw [hpre]; exact hin
        rw [List.count_append, List.count_append, hz1, hz2, hcnt3.1 hin']
        simp

theorem foldl_grow {step : A → String → A} (q : A → Finset String)
    (hq : ∀ a gk, q a ⊆ q (step a gk)) :
    ∀ (keys : List String) (a : A), q a ⊆ q (keys.foldl step a) := by
  intro keys
  induction keys with
  | nil => exact fun a => Finset.Subset.refl _
  | cons k ks ih =>
    intro a
    exact (hq a k).trans (ih (step a k))

theorem rerunStep_mono (evs : List EconomicEvent) (a : BotStateW × List Emit)
    (gk : String) :
    a.1.posted_release_groups ⊆ (rerunStep evs a gk).1.posted_release_groups ∧
    (rerunStep evs a gk).1.posted_missing_groups = a.1.posted_missing_groups ∧
    (rerunStep evs a gk).1.posted_expired_groups = a.1.posted_expired_groups := by
  rcases a with ⟨st, ems⟩
  unfold rerunStep
  dsimp only
  split_ifs
  · exact ⟨Finset.subset_insert _ _, rfl, rfl⟩
  · exact ⟨Finset.Subset.refl _, rfl, rfl⟩

/-! ## C3: at-most-once notifications and monotone posted sets -/

/-- A group already fully released, for the C3 counterexample. -/
def c3ev : EconomicEvent :=
  { event_id := "bls-nfp-1", name := "Nonfarm Payrolls", scheduled_time_et := 0,
    provider := "BLS", provider_configured := true, status := .released,
    release := { actual := some "150K" }, group_key := some "g" }

/-- Fresh bot state (all posted sets empty). -/
def stEmpty : BotStateW := {}

/-- C3 counterexample: a live tick posts the released group `"g"` once
and records it in `posted_release_groups`; a subsequent `!rerun`
(whose `posted_release_groups` check is commented out in the source)
posts the same group again, so across interleaved reruns the `released`
notification is not at-most-once per key. -/
theorem claim_C3_counterexample :
    ((liveTick cfgDefault ["BLS"] id ⟨[], []⟩ [c3ev] stEmpty 10).emits ++
        (rerunCmd cfgDefault ["BLS"] id
          (liveTick cfgDefault ["BLS"] id ⟨[], []⟩ [c3ev] stEmpty 10).events
          (liveTick cfgDefault ["BLS"] id ⟨[], []⟩ [c3ev] stEmpty 10).state
          20).2.2.1).count ((Kind.released, "g") : Emit) = 2 := by
  decide

/-- C3 (amended): over any replay of live-monitor ticks (arbitrary clock
readings and fetch outcomes per tick), at most one notification of each
kind is ever emitted per group key — none at all for keys already in the
corresponding posted set — and each posted set grows monotonically; a
manual `!rerun` also only grows the posted sets (and leaves the missing/
expired sets unchanged), but it may re-emit a `released` notification
for a key already in `posted_release_groups`, since its dedup check is
commented out. -/
theorem claim_C3 (cfg : WCfg) (providers : List String)
    (init : Watcher × List EconomicEvent × BotStateW)
    (inputs : List (Int × (EconomicEvent → EconomicEvent)))
    (k : Kind) (gk : String) :
    ((runTicks cfg providers init inputs).2.count (k, gk) ≤ 1) ∧
    (gk ∈ postedOf init.2.2 k →
      (runTicks cfg providers init inputs).2.count (k, gk) = 0) ∧
    postedOf init.2.2 k ⊆ postedOf (runTicks cfg providers init inputs).1.2.2 k ∧
    (∀ (evs' : List EconomicEvent) (st' : BotStateW) (now' : Int)
        (fetch' : EconomicEvent → EconomicEvent),
      postedOf st' k ⊆
        postedOf (rerunCmd cfg providers fetch' evs' st' now').2.1 k) := by
  have hrerun : ∀ (evs' : List EconomicEvent) (st' : BotStateW) (now' : Int)
      (fetch' : EconomicEvent → EconomicEvent),
      postedOf st' k ⊆ postedOf (rerunCmd cfg providers fetch' evs' st' now').2.1 k := by
    intro evs' st' now' fetch'
    rcases hfp : forcePollOnce cfg providers fetch' evs' now' true with ⟨evs1, fids⟩
    have hcmd : (rerunCmd cfg providers fetch' evs' st' now').2.1
        = ((groupKeys evs1).foldl (rerunStep evs1) (st', [])).1 := by
      unfold rerunCmd
      rw [hfp]
    rw [hcmd]
    cases k with
    | released =>
      exact foldl_grow (fun a => a.1.posted_release_groups)
        (fun a gk' => (rerunStep_mono evs1 a gk').1) (groupKeys evs1) (st', [])
    | missing =>
      have := foldl_preserve (fun a => a.1.posted_missing_groups)
        (fun a gk' => (rerunStep_mono evs1 a gk').2.1) (groupKeys evs1) (st', [])
      simp only at this
      rw [show postedOf ((groupKeys evs1).foldl (rerunStep evs1) (st', [])).1 Kind.missing
          = ((groupKeys evs1).foldl (rerunStep evs1) (st', [])).1.posted_missing_groups
          from rfl, this]
      exact Finset.Subset.refl _
    | expired =>
      have := foldl_preserve (fun a => a.1.posted_expired_groups)
        (fun a gk' => (rerunStep_mono evs1 a gk').2.2) (groupKeys evs1) (st', [])
      simp only at this
      rw [show postedOf ((groupKeys evs1).foldl (rerunStep evs1) (st', [])).1 Kind.expired
          = ((groupKeys evs1).foldl (rerunStep evs1) (st', [])).1.posted_expired_groups
          from rfl, this]
      exact Finset.Subset.refl _
  induction inputs generalizing init with
  | nil =>
    refine ⟨by simp [runTicks], fun _ => by simp [runTicks], ?_, hrerun⟩
    show postedOf init.2.2 k ⊆ postedOf (runTicks cfg providers init []).1.2.2 k
    have h0 : runTicks cfg providers init [] = (init, []) := by
      rcases init with ⟨w, evs, st⟩
      rfl
    rw [h0]
  | cons input rest ih =>
    rcases init with ⟨w, evs, st⟩
    rcases input with ⟨now, fetch⟩
    rcases ht : liveTick cfg providers fetch w evs st now with ⟨evs', w', st', ems', fids'⟩
    have hF := liveTick_facts cfg providers fetch w evs st now k gk
    rw [ht] at hF
    simp only at hF
    have hrun : runTicks cfg providers (w, evs, st) ((now, fetch) :: rest)
        = ((runTicks cfg providers (w', evs', st') rest).1,
            ems' ++ (runTicks cfg providers (w', evs', st') rest).2) := by
      simp only [runTicks]
      rw [ht]
    have hih := ih (w', evs', st')
    rw [hrun]
    simp only [List.count_append]
    refine ⟨?_, ?_, ?_, hrerun⟩
    · by_cases hin : gk ∈ postedOf st k
      · rw [hF.2.2.2 hin, hih.2.1 (hF.2.1 hin)]
        omega
      · by_cases hmem : ((k, gk) : Emit) ∈ ems'
        · rw [hih.2.1 (hF.1 hmem).2]
          simpa using hF.2.2.1
        · rw [List.count_eq_zero.mpr hmem]
          simpa using hih.1
    · intro hin
      rw [hF.2.2.2 hin, hih.2.1 (hF.2.1 hin)]
    · exact (hF.2.1).trans hih.2.2.1

/-! ## C1: what triggers an "expired" notification -/

/-- Group `gk` has a witness for the expired check: some non-terminal
member past its day cutoff. -/
def ExpiredWitness (cfg : WCfg) (now : Int) (evs : List EconomicEvent)
    (gk : String) : Prop :=
  ∃ e ∈ members evs gk, isTerminal e.status = false ∧ isExpiredForDay cfg e now = true

/-- Every member of group `gk` is terminal or `missing`. -/
def GroupMissing (evs : List EconomicEvent) (gk : String) : Prop :=
  ∀ e ∈ members evs gk, isTerminal e.status = true ∨ e.status = .missing

/-- The per-event mutation performed by the expired check on group `gk'`. -/
def missingMut (gk' : String) (e : EconomicEvent) : EconomicEvent :=
  if groupKeyOf e = gk' ∧ ¬isTerminal e.status then { e with status := .missing } else e

theorem setMissingInGroup_eq_map (evs : List EconomicEvent) (gk' : String) :
    setMissingInGroup evs gk' = evs.map (missingMut gk') := rfl

theorem groupKeyOf_missingMut (gk' : String) (e : EconomicEvent) :
    groupKeyOf (missingMut gk' e) = groupKeyOf e := by
  unfold missingMut
  split_ifs <;> rfl

theorem members_map (evs : List EconomicEvent) (gk : String)
    (f : EconomicEvent → EconomicEvent)
    (hf : ∀ e, groupKeyOf (f e) = groupKeyOf e) :
    members (evs.map f) gk = (members evs gk).map f := by
  unfold members
  induction evs with
  | nil => rfl
  | cons e rest ih =>
    simp only [List.map_cons, List.filter_cons, hf e]
    by_cases h : groupKeyOf e = gk
    · simp [h, ih]
    · simp [h, ih]

theorem isExpiredForDay_missing (cfg : WCfg) (now : Int) (e : EconomicEvent)
    (h : isTerminal e.status = false) :
    isExpiredForDay cfg { e with status := .missing } now = isExpiredForDay cfg e now := by
  unfold isExpiredForDay
  have hm : isTerminal EventStatus.missing = false := rfl
  simp only [h, hm]
  rfl

/-- `missingMut` preserves the expired-witness predicate. -/
theorem missingMut_pred (cfg : WCfg) (now : Int) (gk' : String) (e : EconomicEvent) :
    (isTerminal (missingMut gk' e).status = false ∧
        isExpiredForDay cfg (missingMut gk' e) now = true) ↔
      (isTerminal e.status = false ∧ isExpiredForDay cfg e now = true) := by
  unfold missingMut
  split_ifs with h
  · have hterm : isTerminal e.status = false := by
      rcases h with ⟨-, h2⟩
      simpa using h2
    constructor
    · rintro ⟨-, hx⟩
      rw [isExpiredForDay_missing cfg now e hterm] at hx
      exact ⟨hterm, hx⟩
    · rintro ⟨-, hx⟩
      rw [isExpiredForDay_missing cfg now e hterm]
      exact ⟨rfl, hx⟩
  · exact Iff.rfl

/-- `missingMut` maps a terminal-or-missing status to a terminal-or-missing
status. -/
theorem missingMut_groupMissing (gk' : String) (e : EconomicEvent)
    (h : isTerminal e.status = true ∨ e.status = .missing) :
    isTerminal (missingMut gk' e).status = true ∨ (missingMut gk' e).status = .missing := by
  unfold missingMut
  split_ifs with hc
  · exact Or.inr rfl
  · exact h

/-- One expired-check step keeps the soundness invariants. -/
theorem expiredStep_sound (cfg : WCfg) (now : Int)
    (evs : List EconomicEvent) (st : BotStateW) (ems : List Emit)
    (evs₀ : List EconomicEvent) (k' : String)
    (hinv1 : ∀ gk, ((Kind.expired, gk) : Emit) ∈ ems → ExpiredWitness cfg now evs₀ gk)
    (hinv2 : ∀ gk e, e ∈ members evs gk →
      isTerminal e.status = false → isExpiredForDay cfg e now = true →
      ExpiredWitness cfg now evs₀ gk)
    (hinv3 : ∀ gk, ((Kind.expired, gk) : Emit) ∈ ems → GroupMissing evs gk) :
    (∀ gk, ((Kind.expired, gk) : Emit) ∈ (expiredStep cfg now (evs, st, ems) k').2.2 →
      ExpiredWitness cfg now evs₀ gk) ∧
    (∀ gk e, e ∈ members (expiredStep cfg now (evs, st, ems) k').1 gk →
      isTerminal e.status = false → isExpiredForDay cfg e now = true →
      ExpiredWitness cfg now evs₀ gk) ∧
    (∀ gk, ((Kind.expired, gk) : Emit) ∈ (expiredStep cfg now (evs, st, ems) k').2.2 →
      GroupMissing (expiredStep cfg now (evs, st, ems) k').1 gk) := by
  unfold expiredStep
  dsimp only
  split_ifs with h1 h2 h3 h4
  · exact ⟨hinv1, hinv2, hinv3⟩
  · exact ⟨hinv1, hinv2, hinv3⟩
  · exact ⟨hinv1, hinv2, hinv3⟩
  · -- the emit branch: the group's members become missing
    have hwit : ExpiredWitness cfg now evs₀ k' := by
      rcases List.any_eq_true.mp h4 with ⟨e, he, hex⟩
      rcases List.mem_filter.mp he with ⟨hmem, hterm⟩
      have hterm' : isTerminal e.status = false := by
        simpa using hterm
      exact hinv2 k' e hmem hterm' hex
    refine ⟨?_, ?_, ?_⟩
    · intro gk hgk
      simp only at hgk
      rcases List.mem_append.mp hgk with h | h
      · exact hinv1 gk h
      · have : gk = k' := by simpa using h
        rw [this]
        exact hwit
    · intro gk e hmem hterm hex
      simp only [setMissingInGroup_eq_map] at hmem
      rw [members_map evs gk (missingMut k') (groupKeyOf_missingMut k')] at hmem
      rcases List.mem_map.mp hmem with ⟨e₀, he₀, rfl⟩
      obtain ⟨ht₀, hx₀⟩ := (missingMut_pred cfg now k' e₀).mp ⟨hterm, hex⟩
      exact hinv2 gk e₀ he₀ ht₀ hx₀
    · intro gk hgk e hmem
      simp only [setMissingInGroup_eq_map] at hmem
      rw [members_map evs gk (missingMut k') (groupKeyOf_missingMut k')] at hmem
      rcases List.mem_map.mp hmem with ⟨e₀, he₀, rfl⟩
      simp only at hgk
      rcases List.mem_append.mp hgk with h | h
      · exact missingMut_groupMissing k' e₀ (hinv3 gk h e₀ he₀)
      · have hgkk : gk = k' := by simpa using h
        subst hgkk
        unfold missingMut
        have hkey : groupKeyOf e₀ = gk := of_decide_eq_true (List.mem_filter.mp he₀).2
        by_cases hterm : isTerminal e₀.status
        · rw [if_neg (by simp [hterm])]
          exact Or.inl hterm
        · rw [if_pos ⟨hkey, hterm⟩]
          exact Or.inr rfl
  · exact ⟨hinv1, hinv2, hinv3⟩

/-- Folding the expired-check over any key list keeps the invariants. -/
theorem expiredFold_sound (cfg : WCfg) (now : Int) (evs₀ : List EconomicEvent) :
    ∀ (keys : List String) (acc : List EconomicEvent × BotStateW × List Emit),
      (∀ gk, ((Kind.expired, gk) : Emit) ∈ acc.2.2 → ExpiredWitness cfg now evs₀ gk) →
      (∀ gk e, e ∈ members acc.1 gk →
        isTerminal e.status = false → isExpiredForDay cfg e now = true →
        ExpiredWitness cfg now evs₀ gk) →
      (∀ gk, ((Kind.expired, gk) : Emit) ∈ acc.2.2 → GroupMissing acc.1 gk) →
      (∀ gk, ((Kind.expired, gk) : Emit) ∈ (keys.foldl (expiredStep cfg now) acc).2.2 →
        ExpiredWitness cfg now evs₀ gk ∧
        GroupMissing (keys.foldl (expiredStep cfg now) acc).1 gk) := by
  intro keys
  induction keys with
  | nil => exact fun acc h1 h2 h3 gk hgk => ⟨h1 gk hgk, h3 gk hgk⟩
  | cons k' ks ih =>
    intro acc h1 h2 h3
    rcases acc with ⟨evs, st, ems⟩
    obtain ⟨h1', h2', h3'⟩ := expiredStep_sound cfg now evs st ems evs₀ k' h1 h2 h3
    simpa only [List.foldl_cons] using ih (expiredStep cfg now (evs, st, ems) k') h1' h2' h3'

/-- C1 (amended): on a live tick, for a group key not yet posted, the
"expired" notification is emitted when *some* (not every) non-terminal
member satisfies `is_expired_for_day` — the source uses `any(...)`;
whenever it is emitted, the key was not yet in `posted_expired_groups`,
it is recorded there, and every member of the group ends the tick
terminal or `missing`. -/
theorem claim_C1 (cfg : WCfg) (providers : List String)
    (fetch : EconomicEvent → EconomicEvent) (w : Watcher)
    (evs : List EconomicEvent) (st : BotStateW) (now : Int) (gk : String)
    (hmem : ((Kind.expired, gk) : Emit) ∈ (liveTick cfg providers fetch w evs st now).emits) :
    gk ∉ st.posted_expired_groups ∧
    gk ∈ (liveTick cfg providers fetch w evs st now).state.posted_expired_groups ∧
    ExpiredWitness cfg now (checkDueLiveOnce cfg providers fetch w evs now).1 gk ∧
    GroupMissing (liveTick cfg providers fetch w evs st now).events gk := by
  have hF := (liveTick_facts cfg providers fetch w evs st now Kind.expired gk).1 hmem
  by_cases hev : evs.isEmpty
  · have h : liveTick cfg providers fetch w evs st now = ⟨evs, w, st, [], []⟩ := by
      unfold liveTick
      rw [if_pos hev]
    rw [h] at hmem
    exact absurd hmem (by simp)
  · rcases hcd : checkDueLiveOnce cfg providers fetch w evs now with ⟨evs1, w1, fids⟩
    rcases hep : expiredPass cfg now evs1 st with ⟨evs2, st1, em1⟩
    rcases hmp : missingPass cfg now evs2 st1 with ⟨st2, em2⟩
    rcases hrp : releasePass evs2 st2 with ⟨st3, em3⟩
    have hlt : liveTick cfg providers fetch w evs st now
        = ⟨evs2, w1, st3, em1 ++ em2 ++ em3, fids⟩ := by
      unfold liveTick
      rw [if_neg hev]
      simp only [hcd, hep, hmp, hrp]
    rw [hlt] at hmem
    simp only at hmem
    -- the emit can only come from the expired pass
    have hchar2 := foldl_emit_char (missingStep_ok cfg now evs2) (groupKeys evs2) (st1, [])
    rw [show (groupKeys evs2).foldl (missingStep cfg now evs2) (st1, [])
        = missingPass cfg now evs2 st1 from rfl, hmp] at hchar2
    have hchar3 := foldl_emit_char (releaseStep_ok evs2) (groupKeys evs2) (st2, [])
    rw [show (groupKeys evs2).foldl (releaseStep evs2) (st2, [])
        = releasePass evs2 st2 from rfl, hrp] at hchar3
    have hmem1 : ((Kind.expired, gk) : Emit) ∈ em1 := by
      rcases List.mem_append.mp hmem with h | h
      · rcases List.mem_append.mp h with h' | h'
        · exact h'
        · rcases hchar2 _ h' with hh | ⟨hh, -⟩
          · exact absurd hh (List.not_mem_nil _)
          · simp at hh
      · rcases hchar3 _ h with hh | ⟨hh, -⟩
        · exact absurd hh (List.not_mem_nil _)
        · simp at hh
    have hsound := expiredFold_sound cfg now evs1 (groupKeys evs1) (evs1, st, [])
      (fun gk' h => absurd h (List.not_mem_nil _))
      (fun gk' e he ht hx => ⟨e, he, ht, hx⟩)
      (fun gk' h => absurd h (List.not_mem_nil _))
      gk
    rw [show (groupKeys evs1).foldl (expiredStep cfg now) (evs1, st, [])
        = expiredPass cfg now evs1 st from rfl, hep] at hsound
    simp only at hsound
    obtain ⟨hwit, hgm⟩ := hsound hmem1
    rw [hlt] at hF ⊢
    simp only at hF ⊢
    exact ⟨hF.1, hF.2, hwit, hgm⟩

/-- First group member for C1: scheduled 08:30 day 0, still `scheduled`,
so it is expired-for-day at 17:00. -/
def c1e1 : EconomicEvent :=
  { event_id := "bea-gdp-1", name := "GDP", scheduled_time_et := 30600,
    provider := "BEA", provider_configured := true, status := .scheduled,
    group_key := some "g" }

/-- Second group member for C1: scheduled 08:30 the *next* day, so it is
not expired-for-day at 17:00 of day 0 (its scheduled time has not even
arrived). -/
def c1e2 : EconomicEvent :=
  { event_id := "bea-gdp-2", name := "GDP Deflator", scheduled_time_et := 117000,
    provider := "BEA", provider_configured := true, status := .scheduled,
    group_key := some "g" }

/-- C1 counterexample: at 17:00 of day 0 the group `"g"` contains the
non-terminal member `c1e2` with `is_expired_for_day = false`, yet the
tick emits the "expired" notification for `"g"` (the source tests
`any(...)`, not `all(...)`), and even flips the future event `c1e2` to
`missing`. -/
theorem claim_C1_counterexample :
    ((Kind.expired, "g") : Emit) ∈
      (liveTick cfgDefault ["BEA"] id ⟨[], []⟩ [c1e1, c1e2] stEmpty 61200).emits ∧
    c1e2 ∈ members (checkDueLiveOnce cfgDefault ["BEA"] id ⟨[], []⟩ [c1e1, c1e2] 61200).1 "g" ∧
    isTerminal c1e2.status = false ∧
    isExpiredForDay cfgDefault c1e2 61200 = false ∧
    (liveTick cfgDefault ["BEA"] id ⟨[], []⟩ [c1e1, c1e2] stEmpty 61200).events.map
      (fun e => e.status) = [.missing, .missing] := by
  decide

theorem claim_C1_witness :
    ((Kind.expired, "g") : Emit) ∈
      (liveTick cfgDefault ["BEA"] id ⟨[], []⟩ [c1e1] stEmpty 61200).emits ∧
    ("g" ∉ stEmpty.posted_expired_groups ∧
      "g" ∈ (liveTick cfgDefault ["BEA"] id ⟨[], []⟩ [c1e1] stEmpty 61200).state.posted_expired_groups ∧
      ExpiredWitness cfgDefault 61200
        (checkDueLiveOnce cfgDefault ["BEA"] id ⟨[], []⟩ [c1e1] 61200).1 "g" ∧
      GroupMissing (liveTick cfgDefault ["BEA"] id ⟨[], []⟩ [c1e1] stEmpty 61200).events "g") :=
  ⟨by decide,
    claim_C1 cfgDefault ["BEA"] id ⟨[], []⟩ [c1e1] stEmpty 61200 "g" (by decide)⟩

/-! ## Serialization layer: civil datetimes and ISO-8601 round-trips

`src/utils/cache.py` and `src/utils/state.py` persist datetimes with
`datetime.isoformat()` and read them back with
`datetime.fromisoformat()`.  Here datetimes are explicit civil values
with an optional UTC offset in minutes (`None` models a naive
datetime); `isoformat` is implemented as Python prints aware
minute-offset datetimes, and `fromisoformat` parses that grammar (the
subset of Python's parser exercised by the repository's own output). -/

/-- A Python `datetime`: civil fields plus an optional fixed UTC offset
in minutes (`none` = naive). -/
structure DateTimeC where
  year : Nat
  month : Nat
  day : Nat
  hour : Nat
  minute : Nat
  second : Nat
  microsecond : Nat := 0
  tzOffsetMin : Option Int := none
deriving DecidableEq, Repr

/-- The decimal digit character for `n ≤ 9`. -/
def digitChar : Nat → Char
  | 0 => '0' | 1 => '1' | 2 => '2' | 3 => '3' | 4 => '4'
  | 5 => '5' | 6 => '6' | 7 => '7' | 8 => '8' | _ => '9'

/-- The numeric value of a digit character. -/
def dv (c : Char) : Nat := c.toNat - 48

def pad2 (n : Nat) : List Char := [digitChar (n / 10), digitChar (n % 10)]

def pad4 (n : Nat) : List Char :=
  [digitChar (n / 1000), digitChar (n / 100 % 10), digitChar (n / 10 % 10),
   digitChar (n % 10)]

def pad6 (n : Nat) : List Char :=
  [digitChar (n / 100000), digitChar (n / 10000 % 10), digitChar (n / 1000 % 10),
   digitChar (n / 100 % 10), digitChar (n / 10 % 10), digitChar (n % 10)]

/-- The `±HH:MM` suffix `datetime.isoformat` prints for an aware
datetime with a whole-minute offset; empty for a naive one. -/
def offChars : Option Int → List Char
  | none => []
  | some o =>
    (if o < 0 then '-' else '+') :: (pad2 (o.natAbs / 60) ++ (':' :: pad2 (o.natAbs % 60)))

/-- `datetime.isoformat()`: `YYYY-MM-DDTHH:MM:SS[.ffffff][±HH:MM]`
(the fraction appears only when `microsecond` is nonzero). -/
def isoChars (d : DateTimeC) : List Char :=
  pad4 d.year ++ ('-' :: (pad2 d.month ++ ('-' :: (pad2 d.day ++
    ('T' :: (pad2 d.hour ++ (':' :: (pad2 d.minute ++ (':' :: (pad2 d.second ++
      ((if d.microsecond = 0 then [] else '.' :: pad6 d.microsecond) ++
        offChars d.tzOffsetMin)))))))))))

def isoformat (d : DateTimeC) : String := ⟨isoChars d⟩

def take2 : List Char → Option (Nat × List Char)
  | a :: b :: rest =>
    if a.isDigit ∧ b.isDigit then some (dv a * 10 + dv b, rest) else none
  | _ => none

def take4 : List Char → Option (Nat × List Char)
  | a :: b :: c :: d :: rest =>
    if a.isDigit ∧ b.isDigit ∧ c.isDigit ∧ d.isDigit then
      some (((dv a * 10 + dv b) * 10 + dv c) * 10 + dv d, rest)
    else none
  | _ => none

def take6 : List Char → Option (Nat × List Char)
  | a :: b :: c :: d :: e :: f :: rest =>
    if a.isDigit ∧ b.isDigit ∧ c.isDigit ∧ d.isDigit ∧ e.isDigit ∧ f.isDigit then
      some (((((dv a * 10 + dv b) * 10 + dv c) * 10 + dv d) * 10 + dv e) * 10 + dv f,
        rest)
    else none
  | _ => none

def expectCh (c : Char) : List Char → Option (List Char)
  | x :: rest => if x = c then some rest else none
  | [] => none

/-- Parse the optional `±HH:MM` offset suffix (whole input consumed). -/
def parseOff : List Char → Option (Option Int)
  | [] => some none
  | sgn :: rest =>
    if sgn = '+' ∨ sgn = '-' then
      match take2 rest with
      | some (h, rest1) =>
        match expectCh ':' rest1 with
        | some rest2 =>
          match take2 rest2 with
          | some (m, []) =>
            some (some (if sgn = '-' then -((h * 60 + m : Nat) : Int)
              else ((h * 60 + m : Nat) : Int)))
          | _ => none
        | none => none
      | none => none
    else none

/-- Parse the optional `.ffffff` fraction followed by the offset. -/
def parseFracOff : List Char → Option (Nat × Option Int)
  | c :: rest =>
    if c = '.' then
      match take6 rest with
      | some (us, rest1) => (parseOff rest1).map (fun o => (us, o))
      | none => none
    else (parseOff (c :: rest)).map (fun o => (0, o))
  | [] => (parseOff []).map (fun o => (0, o))

/-- `datetime.fromisoformat` on the grammar `isoformat` emits. -/
def parseIsoChars (cs : List Char) : Option DateTimeC :=
  (take4 cs).bind fun (y, r1) =>
  (expectCh '-' r1).bind fun r2 =>
  (take2 r2).bind fun (mo, r3) =>
  (expectCh '-' r3).bind fun r4 =>
  (take2 r4).bind fun (dy, r5) =>
  (expectCh 'T' r5).bind fun r6 =>
  (take2 r6).bind fun (h, r7) =>
  (expectCh ':' r7).bind fun r8 =>
  (take2 r8).bind fun (mi, r9) =>
  (expectCh ':' r9).bind fun r10 =>
  (take2 r10).bind fun (s, r11) =>
  (parseFracOff r11).map fun (us, off) => ⟨y, mo, dy, h, mi, s, us, off⟩

def fromisoformat (s : String) : Option DateTimeC := parseIsoChars s.data

/-- The field bounds Python's `datetime` guarantees (loosened to what
the pad-width round-trip needs; `MINYEAR ≤ year ≤ MAXYEAR = 9999`,
month/day/hour/minute/second all two digits, microseconds six digits,
offsets strictly inside ±24 h). -/
def validDT (d : DateTimeC) : Bool :=
  d.year ≤ 9999 && d.month ≤ 99 && d.day ≤ 99 && d.hour ≤ 99 &&
  d.minute ≤ 99 && d.second ≤ 99 && d.microsecond ≤ 999999 &&
  d.tzOffsetMin.elim true (fun o => o.natAbs ≤ 1439)

theorem dv_digitChar (k : Nat) (h : k ≤ 9) : dv (digitChar k) = k := by
  interval_cases k <;> rfl

theorem digitChar_isDigit (k : Nat) (h : k ≤ 9) : (digitChar k).isDigit = true := by
  interval_cases k <;> rfl

theorem take2_pad2 (n : Nat) (r : List Char) (h : n ≤ 99) :
    take2 (pad2 n ++ r) = some (n, r) := by
  have h1 : n / 10 ≤ 9 := by omega
  have h2 : n % 10 ≤ 9 := by omega
  show take2 (digitChar (n / 10) :: digitChar (n % 10) :: r) = some (n, r)
  unfold take2
  dsimp only
  rw [if_pos ⟨digitChar_isDigit _ h1, digitChar_isDigit _ h2⟩,
    dv_digitChar _ h1, dv_digitChar _ h2]
  have : n / 10 * 10 + n % 10 = n := by omega
  rw [this]

theorem take4_pad4 (n : Nat) (r : List Char) (h : n ≤ 9999) :
    take4 (pad4 n ++ r) = some (n, r) := by
  have h1 : n / 1000 ≤ 9 := by omega
  have h2 : n / 100 % 10 ≤ 9 := by omega
  have h3 : n / 10 % 10 ≤ 9 := by omega
  have h4 : n % 10 ≤ 9 := by omega
  show take4 (digitChar (n / 1000) :: digitChar (n / 100 % 10) ::
    digitChar (n / 10 % 10) :: digitChar (n % 10) :: r) = some (n, r)
  unfold take4
  dsimp only
  rw [if_pos ⟨digitChar_isDigit _ h1, digitChar_isDigit _ h2,
    digitChar_isDigit _ h3, digitChar_isDigit _ h4⟩,
    dv_digitChar _ h1, dv_digitChar _ h2, dv_digitChar _ h3, dv_digitChar _ h4]
  have : ((n / 1000 * 10 + n / 100 % 10) * 10 + n / 10 % 10) * 10 + n % 10 = n := by
    omega
  rw [this]

theorem take6_pad6 (n : Nat) (r : List Char) (h : n ≤ 999999) :
    take6 (pad6 n ++ r) = some (n, r) := by
  have h1 : n / 100000 ≤ 9 := by omega
  have h2 : n / 10000 % 10 ≤ 9 := by omega
  have h3 : n / 1000 % 10 ≤ 9 := by omega
  have h4 : n / 100 % 10 ≤ 9 := by omega
  have h5 : n / 10 % 10 ≤ 9 := by omega
  have h6 : n % 10 ≤ 9 := by omega
  show take6 (digitChar (n / 100000) :: digitChar (n / 10000 % 10) ::
    digitChar (n / 1000 % 10) :: digitChar (n / 100 % 10) ::
    digitChar (n / 10 % 10) :: digitChar (n % 10) :: r) = some (n, r)
  unfold take6
  dsimp only
  rw [if_pos ⟨digitChar_isDigit _ h1, digitChar_isDigit _ h2, digitChar_isDigit _ h3,
    digitChar_isDigit _ h4, digitChar_isDigit _ h5, digitChar_isDigit _ h6⟩,
    dv_digitChar _ h1, dv_digitChar _ h2, dv_digitChar _ h3,
    dv_digitChar _ h4, dv_digitChar _ h5, dv_digitChar _ h6]
  have : ((((n / 100000 * 10 + n / 10000 % 10) * 10 + n / 1000 % 10) * 10
      + n / 100 % 10) * 10 + n / 10 % 10) * 10 + n % 10 = n := by
    omega
  rw [this]

theorem expectCh_cons (c : Char) (r : List Char) : expectCh c (c :: r) = some r := by
  unfold expectCh
  dsimp only
  rw [if_pos rfl]

theorem take2_pad2_nil (n : Nat) (h : n ≤ 99) : take2 (pad2 n) = some (n, []) := by
  have := take2_pad2 n [] h
  rwa [List.append_nil] at this

theorem parseOff_round (t : Option Int)
    (h : t.elim True (fun o => o.natAbs ≤ 1439)) :
    parseOff (offChars t) = some t := by
  cases t with
  | none => rfl
  | some o =>
    have hb : o.natAbs ≤ 1439 := h
    have hh : o.natAbs / 60 ≤ 99 := by omega
    have hm : o.natAbs % 60 ≤ 99 := by omega
    have e1 : take2 (pad2 (o.natAbs / 60) ++ (':' :: pad2 (o.natAbs % 60)))
        = some (o.natAbs / 60, ':' :: pad2 (o.natAbs % 60)) := take2_pad2 _ _ hh
    have e2 : take2 (pad2 (o.natAbs % 60)) = some (o.natAbs % 60, []) :=
      take2_pad2_nil _ hm
    simp only [offChars]
    by_cases hneg : o < 0
    · rw [if_pos hneg]
      unfold parseOff
      dsimp only
      rw [if_pos (Or.inr rfl)]
      simp only [e1, expectCh_cons, e2, if_true, if_false]
      have hval : -((o.natAbs / 60 * 60 + o.natAbs % 60 : Nat) : Int) = o := by
        have h60 : (o.natAbs / 60 * 60 + o.natAbs % 60 : Nat) = o.natAbs := by omega
        rw [h60]
        omega
      rw [hval]
    · rw [if_neg hneg]
      unfold parseOff
      dsimp only
      rw [if_pos (Or.inl rfl)]
      simp only [e1, expectCh_cons, e2, if_true, if_false]
      have hval : ((o.natAbs / 60 * 60 + o.natAbs % 60 : Nat) : Int) = o := by
        have h60 : (o.natAbs / 60 * 60 + o.natAbs % 60 : Nat) = o.natAbs := by omega
        rw [h60]
        omega
      rw [hval, if_neg (by decide : ¬('+' = '-'))]

theorem parseFracOff_round (us : Nat) (t : Option Int)
    (hus : us ≤ 999999) (ht : t.elim True (fun o => o.natAbs ≤ 1439)) :
    parseFracOff ((if us = 0 then [] else '.' :: pad6 us) ++ offChars t)
      = some (us, t) := by
  by_cases h0 : us = 0
  · subst h0
    rw [if_pos rfl, List.nil_append]
    cases t with
    | none => rfl
    | some o =>
      have hpo := parseOff_round (some o) ht
      simp only [offChars] at hpo ⊢
      by_cases hneg : o < 0
      · rw [if_pos hneg] at hpo ⊢
        unfold parseFracOff
        dsimp only
        rw [if_neg (by decide : ¬('-' = '.')), hpo]
        rfl
      · rw [if_neg hneg] at hpo ⊢
        unfold parseFracOff
        dsimp only
        rw [if_neg (by decide : ¬('+' = '.')), hpo]
        rfl
  · rw [if_neg h0]
    have hsh : (('.' :: pad6 us) ++ offChars t) = '.' :: (pad6 us ++ offChars t) := rfl
    rw [hsh]
    unfold parseFracOff
    dsimp only
    rw [if_pos rfl, take6_pad6 _ _ hus]
    dsimp only
    rw [parseOff_round t ht]
    rfl

/-- The core ISO-8601 round-trip: parsing what `isoformat` printed gives
back the datetime, for every value within Python's `datetime` bounds. -/
theorem parseIso_isoChars (d : DateTimeC) (hv : validDT d = true) :
    parseIsoChars (isoChars d) = some d := by
  unfold validDT at hv
  simp only [Bool.and_eq_true, decide_eq_true_eq] at hv
  obtain ⟨⟨⟨⟨⟨⟨⟨hy, hmo⟩, hd⟩, hh⟩, hmi⟩, hs⟩, hus⟩, hoff⟩ := hv
  have hoff' : d.tzOffsetMin.elim True (fun o => o.natAbs ≤ 1439) := by
    cases ho : d.tzOffsetMin with
    | none => trivial
    | some o =>
      rw [ho] at hoff
      simpa using hoff
  unfold isoChars parseIsoChars
  rw [take4_pad4 _ _ hy]
  dsimp only [Option.some_bind]
  rw [expectCh_cons]
  dsimp only [Option.some_bind]
  rw [take2_pad2 _ _ hmo]
  dsimp only [Option.some_bind]
  rw [expectCh_cons]
  dsimp only [Option.some_bind]
  rw [take2_pad2 _ _ hd]
  dsimp only [Option.some_bind]
  rw [expectCh_cons]
  dsimp only [Option.some_bind]
  rw [take2_pad2 _ _ hh]
  dsimp only [Option.some_bind]
  rw [expectCh_cons]
  dsimp only [Option.some_bind]
  rw [take2_pad2 _ _ hmi]
  dsimp only [Option.some_bind]
  rw [expectCh_cons]
  dsimp only [Option.some_bind]
  rw [take2_pad2 _ _ hs]
  dsimp only [Option.some_bind]
  rw [parseFracOff_round _ _ hus hoff']
  dsimp only [Option.map_some']

/-- Round-trip at the `String` level. -/
theorem fromisoformat_isoformat (d : DateTimeC) (hv : validDT d = true) :
    fromisoformat (isoformat d) = some d :=
  parseIso_isoChars d hv

theorem isoformat_ne_empty (d : DateTimeC) : isoformat d ≠ "" := by
  intro h
  have : isoChars d = [] := congrArg String.data h
  unfold isoChars pad4 at this
  simp at this

/-! ## Persisted documents (`src/utils/cache.py`, `src/utils/state.py`)

The `json.dumps`/`json.loads` string layer is the Python standard
library; the repository's save functions build a payload tree and hand
it to `json.dumps`, whose round-trip to `json.loads` is the identity on
such trees.  The payload trees are modelled by `Json`; a file is
`missing`, `unparsable` (text on which `json.loads` raises
`JSONDecodeError`), or `parsed j`. -/

inductive Json where
  | null
  | bool (b : Bool)
  | str (s : String)
  | arr (items : List Json)
  | obj (fields : List (String × Json))

/-- The Python exceptions the load and fetch paths can raise. -/
inductive PyErr where
  | jsonDecodeError
  | keyError
  | valueError
  | typeError
  | requestError
deriving DecidableEq, Repr

/-- What reading and `json.loads`-ing a file can yield. -/
inductive FileRead where
  | missing
  | unparsable
  | parsed (j : Json)

/-- `ReleaseData` as persisted (civil datetimes). -/
structure ReleaseDataD where
  actual : Option String := none
  previous : Option String := none
  forecast : Option String := none
  unit : Option String := none
  updated_at : Option DateTimeC := none
  source_url : Option String := none
deriving DecidableEq, Repr

/-- `EconomicEvent` as persisted (civil datetimes). -/
structure EconomicEventD where
  event_id : String
  name : String
  country : String
  currency : String
  scheduled_time_et : DateTimeC
  provider : String
  provider_configured : Bool
  status : EventStatus := .scheduled
  release : ReleaseDataD := {}
  group_key : Option String := none
deriving DecidableEq, Repr

def optStrJson : Option String → Json
  | none => .null
  | some s => .str s

def statusStr : EventStatus → String
  | .scheduled => "scheduled"
  | .released => "released"
  | .missing => "missing"
  | .disabled => "disabled"

/-- The status strings stored by the dataclass, folded back into the
typed status (the source stores the raw string without validation; only
the four literals ever occur in a saved document). -/
def statusOfStr (s : String) : EventStatus :=
  if s = "released" then .released
  else if s = "missing" then .missing
  else if s = "disabled" then .disabled
  else .scheduled

/-- `_dt_to_str` composed with the field write. -/
def dtToJson : Option DateTimeC → Json
  | none => .null
  | some dt => .str (isoformat dt)

/-- The `release` sub-dict of `asdict(e)` after `save_events`'s
datetime replacement. -/
def encodeReleaseFields (r : ReleaseDataD) : List (String × Json) :=
  [("actual", optStrJson r.actual), ("previous", optStrJson r.previous),
    ("forecast", optStrJson r.forecast), ("unit", optStrJson r.unit),
    ("updated_at", dtToJson r.updated_at), ("source_url", optStrJson r.source_url)]

def encodeRelease (r : ReleaseDataD) : Json := .obj (encodeReleaseFields r)

/-- `asdict(e)` with the datetime replacements of `save_events`. -/
def encodeEventFields (e : EconomicEventD) : List (String × Json) :=
  [("event_id", .str e.event_id), ("name", .str e.name),
    ("country", .str e.country), ("currency", .str e.currency),
    ("scheduled_time_et", .str (isoformat e.scheduled_time_et)),
    ("provider", .str e.provider),
    ("provider_configured", .bool e.provider_configured),
    ("status", .str (statusStr e.status)),
    ("release", encodeRelease e.release),
    ("group_key", optStrJson e.group_key)]

def encodeEvent (e : EconomicEventD) : Json := .obj (encodeEventFields e)

/-- The payload `save_events` passes to `json.dumps`. -/
def saveEventsJson (events : List EconomicEventD) : Json :=
  .arr (events.map encodeEvent)

/-- `dict.get` on a parsed JSON object. -/
def jget (fields : List (String × Json)) (k : String) : Option Json :=
  (fields.find? (fun p => p.1 = k)).map (fun p => p.2)

/-- An optional-string field (`r.get(k)`); per the persisted schema the
value is a string or null. -/
def jOptStr : Option Json → Option String
  | some (.str s) => some s
  | _ => none

/-- Python truthiness of `d.get(k, False)`, for `bool(...)`. -/
def jTruthy : Option Json → Bool
  | none => false
  | some .null => false
  | some (.bool b) => b
  | some (.str s) => !(s = "")
  | some (.arr l) => !l.isEmpty
  | some (.obj l) => !l.isEmpty

/-- `_dt_from_str(r.get("updated_at"))`: empty/None give `None`, a bad
string raises `ValueError` from `datetime.fromisoformat`. -/
def jDtFromStr : Option Json → Except PyErr (Option DateTimeC)
  | none => .ok none
  | some .null => .ok none
  | some (.str s) =>
    if s = "" then .ok none
    else
      match fromisoformat s with
      | some dt => .ok (some dt)
      | none => .error .valueError
  | some _ => .error .typeError

/-- A required string field (`d[k]`, raising `KeyError` when absent). -/
def jReqStr (fields : List (String × Json)) (k : String) : Except PyErr String :=
  match jget fields k with
  | none => .error .keyError
  | some (.str s) => .ok s
  | some _ => .error .typeError

/-- The `release` sub-record of `load_events` (`d.get("release") or {}`). -/
def decodeRelease (j : Option Json) : Except PyErr ReleaseDataD :=
  let fields := match j with
    | some (.obj fs) => fs
    | _ => []
  match jDtFromStr (jget fields "updated_at") with
  | .error e => .error e
  | .ok ua =>
    .ok { actual := jOptStr (jget fields "actual"),
          previous := jOptStr (jget fields "previous"),
          forecast := jOptStr (jget fields "forecast"),
          unit := jOptStr (jget fields "unit"),
          updated_at := ua,
          source_url := jOptStr (jget fields "source_url") }

/-- One element of the `load_events` loop body. -/
def decodeEvent (j : Json) : Except PyErr EconomicEventD :=
  match j with
  | .obj fields =>
    match decodeRelease (jget fields "release") with
    | .error e => .error e
    | .ok rel =>
      match jReqStr fields "event_id" with
      | .error e => .error e
      | .ok eid =>
        match jReqStr fields "name" with
        | .error e => .error e
        | .ok nm =>
          match jReqStr fields "country" with
          | .error e => .error e
          | .ok co =>
            match jReqStr fields "currency" with
            | .error e => .error e
            | .ok cu =>
              match jReqStr fields "scheduled_time_et" with
              | .error e => .error e
              | .ok sstr =>
                match fromisoformat sstr with
                | none => .error .valueError
                | some sdt =>
                  match jReqStr fields "provider" with
                  | .error e => .error e
                  | .ok pr =>
                    .ok { event_id := eid, name := nm, country := co, currency := cu,
                          scheduled_time_et := sdt, provider := pr,
                          provider_configured :=
                            jTruthy (jget fields "provider_configured"),
                          status := statusOfStr
                            ((jOptStr (jget fields "status")).getD "scheduled"),
                          release := rel,
                          group_key := jOptStr (jget fields "group_key") }
  | _ => .error .typeError

/-- The `for d in raw` accumulation of `load_events` (first failure
propagates, as an uncaught exception would). -/
def decodeEventList : List Json → Except PyErr (List EconomicEventD)
  | [] => .ok []
  | x :: xs =>
    match decodeEvent x with
    | .error e => .error e
    | .ok ev =>
      match decodeEventList xs with
      | .error e => .error e
      | .ok rest => .ok (ev :: rest)

def decodeEvents (j : Json) : Except PyErr (List EconomicEventD) :=
  match j with
  | .arr items => decodeEventList items
  | _ => .error .typeError

/-- `load_events`: a missing file yields `[]`; text `json.loads` cannot
parse raises; a parsed document is decoded. -/
def loadEvents : FileRead → Except PyErr (List EconomicEventD)
  | .missing => .ok []
  | .unparsable => .error .jsonDecodeError
  | .parsed j => decodeEvents j

/-! ### Bot state (`src/utils/state.py`) -/

/-- `BotState` with civil datetime, for the serialization claims. -/
structure BotStateD where
  active_start_et : DateTimeC
  posted_release_groups : Finset String := ∅
  posted_missing_groups : Finset String := ∅
  posted_expired_groups : Finset String := ∅
deriving DecidableEq

/-- `sorted(...)` of a Python set of strings. -/
def sortStr (s : Finset String) : List String := s.sort (· ≤ ·)

/-- The payload `save_state` passes to `json.dumps`. -/
def saveStateFields (st : BotStateD) : List (String × Json) :=
  [("active_start_et", .str (isoformat st.active_start_et)),
    ("posted_release_groups", .arr ((sortStr st.posted_release_groups).map .str)),
    ("posted_missing_groups", .arr ((sortStr st.posted_missing_groups).map .str)),
    ("posted_expired_groups", .arr ((sortStr st.posted_expired_groups).map .str))]

def saveStateJson (st : BotStateD) : Json := .obj (saveStateFields st)

/-- Days since 1970-01-01 of a civil date (standard civil-from-days
algorithm, exact for the proleptic Gregorian calendar `datetime` uses). -/
def daysFromCivil (y m d : Int) : Int :=
  let y' := if m ≤ 2 then y - 1 else y
  let era := y'.ediv 400
  let yoe := y' - era * 400
  let mp := if m ≤ 2 then m + 9 else m - 3
  let doy := (153 * mp + 2).ediv 5 + d - 1
  let doe := yoe * 365 + yoe.ediv 4 - yoe.ediv 100 + doy
  era * 146097 + doe - 719468

/-- Civil date of a day count (inverse of `daysFromCivil`). -/
def civilFromDays (z0 : Int) : Int × Int × Int :=
  let z := z0 + 719468
  let era := z.ediv 146097
  let doe := z - era * 146097
  let yoe := (doe - doe.ediv 1460 + doe.ediv 36524 - doe.ediv 146096).ediv 365
  let y := yoe + era * 400
  let doy := doe - (365 * yoe + yoe.ediv 4 - yoe.ediv 100)
  let mp := (5 * doy + 2).ediv 153
  let d := doy - (153 * mp + 2).ediv 5 + 1
  let m := if mp < 10 then mp + 3 else mp - 9
  (if m ≤ 2 then y + 1 else y, m, d)

/-- The wall-clock minute count of a datetime (seconds and below are
zero for every `active_start_et` the program creates). -/
def wallMinutes (dt : DateTimeC) : Int :=
  daysFromCivil dt.year dt.month dt.day * 1440 + dt.hour * 60 + dt.minute

/-- The UTC instant (in minutes) of an aware datetime with offset `o`. -/
def toUtcMin (dt : DateTimeC) (o : Int) : Int := wallMinutes dt - o

/-- A timezone (`ZoneInfo`), abstracted to its offset rules: minutes
east of UTC as a function of the UTC instant, and of the local wall
clock (for attaching a zone to a naive datetime). -/
structure Zone where
  offAtUtc : Int → Int
  offAtLocal : Int → Int

/-- Shift a datetime's wall clock by whole minutes and install a new
offset (the general re-zoning arm of `astimezone`). -/
def shiftWall (dt : DateTimeC) (delta : Int) (newOff : Option Int) : DateTimeC :=
  let total := wallMinutes dt + delta
  let days := total.ediv 1440
  let rem := total.emod 1440
  let c := civilFromDays days
  { dt with
    year := c.1.toNat
    month := (c.2).fst.toNat
    day := (c.2).snd.toNat
    hour := (rem.ediv 60).toNat
    minute := (rem.emod 60).toNat
    tzOffsetMin := newOff }

/-- `dt.astimezone(zone)`: the instant is preserved and the offset
becomes the zone's offset at that instant; when that offset equals the
datetime's own, the result is the datetime itself (Python returns an
equal datetime with the same wall clock and offset). -/
def astimezone (z : Zone) (dt : DateTimeC) : DateTimeC :=
  match dt.tzOffsetMin with
  | none => dt
  | some o =>
    let o2 := z.offAtUtc (toUtcMin dt o)
    if o2 = o then dt else shiftWall dt (o2 - o) (some o2)

/-- `dt.replace(tzinfo=zone)` on a naive datetime: the wall clock is
kept and the zone's local-rule offset attaches. -/
def replaceTz (z : Zone) (dt : DateTimeC) : DateTimeC :=
  { dt with tzOffsetMin := some (z.offAtLocal (wallMinutes dt)) }

/-- `datetime.weekday()`: Monday = 0 (1970-01-01 was a Thursday). -/
def pyWeekday (dt : DateTimeC) : Int :=
  (daysFromCivil dt.year dt.month dt.day + 3).emod 7

/-- `_monday_start`: midnight of the Monday of `dt`'s week. -/
def mondayStart (dt : DateTimeC) : DateTimeC :=
  let days := daysFromCivil dt.year dt.month dt.day - pyWeekday dt
  let c := civilFromDays days
  { year := c.1.toNat
    month := (c.2).fst.toNat
    day := (c.2).snd.toNat
    hour := 0
    minute := 0
    second := 0
    microsecond := 0
    tzOffsetMin := dt.tzOffsetMin }

/-- `default_state(tz_name)`, with `datetime.now(zone)` supplied as the
oracle `nowDt`. -/
def defaultState (nowDt : DateTimeC) : BotStateD :=
  { active_start_et := mondayStart nowDt }

/-- `set(raw.get(k) or [])` over a parsed JSON value; per the schema the
entries are strings. -/
def jStrList : Option Json → List String
  | some (.arr items) =>
    items.filterMap (fun x => match x with | .str s => some s | _ => none)
  | _ => []

/-- `load_state`: missing file → default state; unparsable → raises;
else decode, with the `active_start_et` falsy/naive/aware cases of the
source. -/
def loadState (f : FileRead) (z : Zone) (nowDt : DateTimeC) :
    Except PyErr BotStateD :=
  match f with
  | .missing => .ok (defaultState nowDt)
  | .unparsable => .error .jsonDecodeError
  | .parsed j =>
    match j with
    | .obj fields =>
      let base : Except PyErr BotStateD :=
        match jget fields "active_start_et" with
        | none => .ok (defaultState nowDt)
        | some .null => .ok (defaultState nowDt)
        | some (.str s) =>
          if s = "" then .ok (defaultState nowDt)
          else
            match fromisoformat s with
            | none => .error .valueError
            | some dt =>
              match dt.tzOffsetMin with
              | none => .ok { active_start_et := replaceTz z dt }
              | some _ => .ok { active_start_et := astimezone z dt }
        | some _ => .error .typeError
      match base with
      | .error e => .error e
      | .ok st =>
        .ok { st with
          posted_release_groups :=
            (jStrList (jget fields "posted_release_groups")).toFinset,
          posted_missing_groups :=
            (jStrList (jget fields "posted_missing_groups")).toFinset,
          posted_expired_groups :=
            (jStrList (jget fields "posted_expired_groups")).toFinset }
    | _ => .error .typeError

/-! ## C7: missing vs unparsable persisted files -/

/-- A fixed-offset Eastern-Standard-Time zone for concrete instances. -/
def zEST : Zone := ⟨fun _ => -300, fun _ => -300⟩

/-- A sample `datetime.now` value: 2026-01-06 09:30 EST. -/
def dtSample : DateTimeC :=
  { year := 2026, month := 1, day := 6, hour := 9, minute := 30, second := 0,
    microsecond := 0, tzOffsetMin := some (-300) }

/-- C7 counterexample: a present but unparsable file does *not* yield
the fresh default — `json.loads` raises out of both `load_events` and
`load_state` (there is no try/except around either), so only the
missing-file half of the claim holds. -/
theorem claim_C7_counterexample :
    loadEvents .unparsable = .error .jsonDecodeError ∧
    loadState .unparsable zEST dtSample = .error .jsonDecodeError ∧
    loadEvents .unparsable ≠ .ok [] ∧
    loadState .unparsable zEST dtSample ≠ .ok (defaultState dtSample) := by
  refine ⟨rfl, rfl, ?_, ?_⟩ <;> intro h <;> cases h

/-- C7 (amended): loading a *missing* file yields the fresh default (an
empty event list, or `default_state`), but loading a present,
unparsable file raises the JSON parse error from both `load_events` and
`load_state`; corrupted-cache recovery exists only for the absent-file
case. -/
theorem claim_C7 (z : Zone) (nowDt : DateTimeC) :
    loadEvents .missing = .ok [] ∧
    loadState .missing z nowDt = .ok (defaultState nowDt) ∧
    loadEvents .unparsable = .error .jsonDecodeError ∧
    loadState .unparsable z nowDt = .error .jsonDecodeError :=
  ⟨rfl, rfl, rfl, rfl⟩

/-! ## C9: save → load round-trips -/

theorem jOptStr_optStrJson (x : Option String) :
    jOptStr (some (optStrJson x)) = x := by
  cases x <;> rfl

theorem statusOfStr_statusStr (st : EventStatus) :
    statusOfStr (statusStr st) = st := by
  cases st <;> rfl

theorem jDtFromStr_dtToJson (u : Option DateTimeC)
    (hv : u.elim true validDT = true) :
    jDtFromStr (some (dtToJson u)) = .ok u := by
  cases u with
  | none => rfl
  | some dt =>
    show jDtFromStr (some (.str (isoformat dt))) = .ok (some dt)
    unfold jDtFromStr
    dsimp only
    rw [if_neg (isoformat_ne_empty dt), fromisoformat_isoformat dt hv]

theorem decodeRelease_encode (r : ReleaseDataD)
    (hv : r.updated_at.elim true validDT = true) :
    decodeRelease (some (encodeRelease r)) = .ok r := by
  unfold decodeRelease encodeRelease
  dsimp only
  rw [show jget (encodeReleaseFields r) "updated_at" = some (dtToJson r.updated_at)
      from rfl, jDtFromStr_dtToJson r.updated_at hv]
  dsimp only
  rw [show jget (encodeReleaseFields r) "actual" = some (optStrJson r.actual) from rfl,
    show jget (encodeReleaseFields r) "previous" = some (optStrJson r.previous) from rfl,
    show jget (encodeReleaseFields r) "forecast" = some (optStrJson r.forecast) from rfl,
    show jget (encodeReleaseFields r) "unit" = some (optStrJson r.unit) from rfl,
    show jget (encodeReleaseFields r) "source_url" = some (optStrJson r.source_url)
      from rfl,
    jOptStr_optStrJson, jOptStr_optStrJson, jOptStr_optStrJson,
    jOptStr_optStrJson, jOptStr_optStrJson]

theorem decodeEvent_encode (e : EconomicEventD)
    (hv1 : validDT e.scheduled_time_et = true)
    (hv2 : e.release.updated_at.elim true validDT = true) :
    decodeEvent (encodeEvent e) = .ok e := by
  unfold decodeEvent encodeEvent
  dsimp only
  rw [show jget (encodeEventFields e) "release" = some (encodeRelease e.release)
      from rfl, decodeRelease_encode e.release hv2]
  dsimp only
  rw [show jReqStr (encodeEventFields e) "event_id" = .ok e.event_id from rfl]
  dsimp only
  rw [show jReqStr (encodeEventFields e) "name" = .ok e.name from rfl]
  dsimp only
  rw [show jReqStr (encodeEventFields e) "country" = .ok e.country from rfl]
  dsimp only
  rw [show jReqStr (encodeEventFields e) "currency" = .ok e.currency from rfl]
  dsimp only
  rw [show jReqStr (encodeEventFields e) "scheduled_time_et"
      = .ok (isoformat e.scheduled_time_et) from rfl]
  dsimp only
  rw [fromisoformat_isoformat _ hv1]
  dsimp only
  rw [show jReqStr (encodeEventFields e) "provider" = .ok e.provider from rfl]
  dsimp only
  rw [show jget (encodeEventFields e) "provider_configured"
      = some (.bool e.provider_configured) from rfl,
    show jget (encodeEventFields e) "status" = some (.str (statusStr e.status))
      from rfl,
    show jget (encodeEventFields e) "group_key" = some (optStrJson e.group_key)
      from rfl]
  rw [show jTruthy (some (.bool e.provider_configured)) = e.provider_configured
      from rfl,
    show (jOptStr (some (.str (statusStr e.status)))).getD "scheduled"
      = statusStr e.status from rfl,
    statusOfStr_statusStr, jOptStr_optStrJson]

theorem decodeEventList_encode (evs : List EconomicEventD)
    (h : evs.all (fun e => validDT e.scheduled_time_et &&
      e.release.updated_at.elim true validDT) = true) :
    decodeEventList (evs.map encodeEvent) = .ok evs := by
  induction evs with
  | nil => rfl
  | cons e rest ih =>
    rw [List.all_cons, Bool.and_eq_true] at h
    obtain ⟨he, hrest⟩ := h
    rw [Bool.and_eq_true] at he
    show decodeEventList (encodeEvent e :: rest.map encodeEvent) = .ok (e :: rest)
    unfold decodeEventList
    rw [decodeEvent_encode e he.1 he.2]
    dsimp only
    rw [ih hrest]

/-- Validity of a persisted event: its datetimes are within Python's
`datetime` field bounds (true of every datetime Python constructs). -/
def validEventD (e : EconomicEventD) : Bool :=
  validDT e.scheduled_time_et && e.release.updated_at.elim true validDT

theorem strs_filterMap (l : List String) :
    (l.map Json.str).filterMap
      (fun x => match x with | .str s => some s | _ => none) = l := by
  induction l with
  | nil => rfl
  | cons s rest ih =>
    simp [List.filterMap_cons, ih]

theorem jStrList_sorted (s : Finset String) :
    jStrList (some (.arr ((sortStr s).map .str))) = sortStr s := by
  unfold jStrList
  exact strs_filterMap (sortStr s)

theorem toFinset_sortStr (s : Finset String) : (sortStr s).toFinset = s := by
  unfold sortStr
  exact Finset.sort_toFinset _ s

/-- C9: `save_events` → `load_events` reproduces the exact event list
(all fields, `scheduled_time_et` and `release.updated_at` offsets
included), and `save_state` → `load_state` reproduces the exact bot
state, given that `active_start_et` is aware and its stored offset is
the loading zone's offset at that instant (true of every state the
program writes, since `active_start_et` is always created in the
configured zone). -/
theorem claim_C9 (evs : List EconomicEventD) (st : BotStateD) (z : Zone)
    (nowDt : DateTimeC) (o : Int)
    (hevs : evs.all validEventD = true)
    (hv : validDT st.active_start_et = true)
    (ho : st.active_start_et.tzOffsetMin = some o)
    (hz : z.offAtUtc (toUtcMin st.active_start_et o) = o) :
    loadEvents (.parsed (saveEventsJson evs)) = .ok evs ∧
    loadState (.parsed (saveStateJson st)) z nowDt = .ok st := by
  constructor
  · show decodeEvents (saveEventsJson evs) = .ok evs
    unfold saveEventsJson decodeEvents
    exact decodeEventList_encode evs hevs
  · have hast : astimezone z st.active_start_et = st.active_start_et := by
      unfold astimezone
      rw [ho]
      dsimp only
      rw [hz, if_pos rfl]
    unfold saveStateJson loadState
    dsimp only
    rw [show jget (saveStateFields st) "active_start_et"
        = some (.str (isoformat st.active_start_et)) from rfl]
    dsimp only
    rw [if_neg (isoformat_ne_empty st.active_start_et),
      fromisoformat_isoformat _ hv]
    dsimp only
    rw [ho]
    dsimp only
    rw [hast]
    rw [show jget (saveStateFields st) "posted_release_groups"
        = some (.arr ((sortStr st.posted_release_groups).map .str)) from rfl,
      show jget (saveStateFields st) "posted_missing_groups"
        = some (.arr ((sortStr st.posted_missing_groups).map .str)) from rfl,
      show jget (saveStateFields st) "posted_expired_groups"
        = some (.arr ((sortStr st.posted_expired_groups).map .str)) from rfl,
      jStrList_sorted, jStrList_sorted, jStrList_sorted,
      toFinset_sortStr, toFinset_sortStr, toFinset_sortStr]

/-- Event for the C9 witness, with offsets and microseconds present. -/
def ev9 : EconomicEventD :=
  { event_id := "bls-cpi-9", name := "CPI", country := "US", currency := "USD",
    scheduled_time_et :=
      { year := 2026, month := 1, day := 6, hour := 8, minute := 30, second := 0,
        microsecond := 0, tzOffsetMin := some (-300) },
    provider := "BLS", provider_configured := true, status := .released,
    release :=
      { actual := some "3.1", previous := some "3.0",
        updated_at := some
          { year := 2026, month := 1, day := 6, hour := 8, minute := 30,
            second := 5, microsecond := 123456, tzOffsetMin := some (-300) } },
    group_key := some "cpi" }

/-- Bot state for the C9 witness. -/
def st9 : BotStateD :=
  { active_start_et :=
      { year := 2026, month := 1, day := 5, hour := 0, minute := 0, second := 0,
        microsecond := 0, tzOffsetMin := some (-300) },
    posted_release_groups := {"cpi"}, posted_missing_groups := ∅,
    posted_expired_groups := {"hol"} }

theorem claim_C9_witness :
    ([ev9].all validEventD = true ∧ validDT st9.active_start_et = true ∧
      st9.active_start_et.tzOffsetMin = some (-300) ∧
      zEST.offAtUtc (toUtcMin st9.active_start_et (-300)) = -300) ∧
    (loadEvents (.parsed (saveEventsJson [ev9])) = .ok [ev9] ∧
      loadState (.parsed (saveStateJson st9)) zEST dtSample = .ok st9) :=
  ⟨⟨by decide, by decide, by decide, by decide⟩,
    claim_C9 [ev9] st9 zEST dtSample (-300) (by decide) (by decide) (by decide)
      (by decide)⟩

/-! ## C8: aggregation under a provider fetch failure
(`refresh_week_calendar` in `src/services/calendar_service.py`) -/

/-- A schedule row `(title, release_dt)` from one source; times are ET
wall-clock seconds as in the watcher model (the source's
naive-to-Eastern normalization is a wall-clock no-op there). -/
structure ScheduleItem where
  title : String
  release_dt : Int
deriving DecidableEq, Repr

/-- `ConfigEvent` from `src/services/calendar_service.py`. -/
structure ConfigEvent where
  id : String
  source : String
  title : String
  match_hint : String
  forecast : Option String := none
deriving DecidableEq, Repr

/-- `EconEvent` from `src/storage/models.py`. -/
structure EconEvent where
  id : String
  source : String
  title : String
  release_dt : Int
  url : Option String := none
  forecast : Option String := none
  previous : Option String := none
  actual : Option String := none
  status : String := "upcoming"
deriving DecidableEq, Repr

def lowerChars (s : String) : List Char := s.data.map Char.toLower

/-- Python's `needle in hay` on strings. -/
def containsSub (hay needle : List Char) : Bool :=
  hay.tails.any (fun t => needle.isPrefixOf t)

/-- `_match(title, hint)`: `hint.lower() in title.lower()`. -/
def matchTitle (title hint : String) : Bool :=
  containsSub (lowerChars title) (lowerChars hint)

/-- Stable insertion keeping earlier equal keys first, for
`out.sort(key=lambda e: e.release_dt)` (Python's sort is stable). -/
def insertByKey (e : EconEvent) : List EconEvent → List EconEvent
  | [] => [e]
  | x :: xs =>
    if x.release_dt ≤ e.release_dt then x :: insertByKey e xs else e :: x :: xs

def sortByReleaseDt (l : List EconEvent) : List EconEvent :=
  l.foldl (fun acc e => insertByKey e acc) []

/-- `refresh_week_calendar`: the three schedule fetches run first, with
no exception handling — each argument is the outcome of one source's
fetch, and a failure propagates; then each configured event takes its
first in-window, title-matching candidate from its source's list. -/
def refreshWeekCalendar (cfg_events : List ConfigEvent)
    (bls bea census : Except PyErr (List ScheduleItem))
    (week_start week_end : Int) : Except PyErr (List EconEvent) :=
  match bls with
  | .error e => .error e
  | .ok bls_items =>
    match bea with
    | .error e => .error e
    | .ok bea_items =>
      match census with
      | .error e => .error e
      | .ok census_items =>
        let sources : List (String × List ScheduleItem) :=
          [("bls", bls_items), ("bea", bea_items), ("census", census_items)]
        let out := cfg_events.filterMap (fun ce =>
          let candidates := (alLookup sources ce.source).getD []
          (candidates.find? (fun it =>
            decide (week_start ≤ it.release_dt ∧ it.release_dt < week_end) &&
              matchTitle it.title ce.match_hint)).map (fun it =>
            ({ id := ce.id, source := ce.source, title := ce.title,
               release_dt := it.release_dt, url := none,
               forecast := ce.forecast } : EconEvent)))
        .ok (sortByReleaseDt out)

/-- Configured event for C8, sourced from BEA. -/
def c8ce : ConfigEvent :=
  { id := "gdp-q4", source := "bea", title := "GDP", match_hint := "gross" }

/-- A matching BEA schedule row for C8. -/
def c8item : ScheduleItem := { title := "Gross Domestic Product", release_dt := 100 }

/-- The event the aggregation produces from `c8ce`/`c8item`. -/
def c8ev : EconEvent :=
  { id := "gdp-q4", source := "bea", title := "GDP", release_dt := 100 }

/-- C8 counterexample: with the BLS fetch failing, the whole of
`refresh_week_calendar` raises, and the BEA-contributed event — which
the same call returns when BLS succeeds — is not returned; a single
source failure aborts aggregation for all sources. -/
theorem claim_C8_counterexample :
    refreshWeekCalendar [c8ce] (.error .requestError) (.ok [c8item]) (.ok [])
      0 1000 = .error .requestError ∧
    refreshWeekCalendar [c8ce] (.ok []) (.ok [c8item]) (.ok [])
      0 1000 = .ok [c8ev] := by
  exact ⟨rfl, rfl⟩

/-- C8 (amended): a failure of any one source's calendar-listing fetch
propagates out of `refresh_week_calendar` (there is no try/except
around the fetches), so that cycle returns no events at all — the
non-failing providers' contributions are lost rather than aggregated. -/
theorem claim_C8 (cfg_events : List ConfigEvent) (er : PyErr)
    (b c : Except PyErr (List ScheduleItem)) (l1 l2 : List ScheduleItem)
    (ws we : Int) :
    refreshWeekCalendar cfg_events (.error er) b c ws we = .error er ∧
    refreshWeekCalendar cfg_events (.ok l1) (.error er) c ws we = .error er ∧
    refreshWeekCalendar cfg_events (.ok l1) (.ok l2) (.error er) ws we
      = .error er := by
  refine ⟨rfl, rfl, rfl⟩

end EconBot
